import Mathlib

/-!
Verification of the `gram` parameter-sweep core against its specification.

The development shallowly embeds the code of `gram/sweep/sweep.py` and
`gram/execution/run_simulation.py`.  External collaborators that are part of
the repository but absent from the provided sources (the `LogSampler` of
`gram/sweep/sampling.py`, the kinetic model classes of `gram/models/*`, and
`ConditionSimulation` of `gram/simulation/environment.py`) are modelled from
the specification, as marked on their doc comments.

Numeric parameter values are idealised as real numbers (log-space bounds as
rationals), the filesystem as a finite map from component-lists to entries,
and `pickle` as a faithful injection of the serialised object into the file.
Python exceptions are the `PyErr` type; a function that can raise returns
`Except PyErr`.  Free-variable resolution at the two buggy call sites is
modelled against the explicit list of names bound in the enclosing module
scope, so that the `NameError`s are derived rather than posited.
-/

set_option maxHeartbeats 1000000
set_option maxRecDepth 8000

namespace Gram

/-- Kinds of Python exception that the embedded code can raise. -/
inductive PyErr where
  | nameError (ident : String)
  | attributeError (attr : String)
  | fileExistsError
  | fileNotFoundError
  | isADirectoryError
  | unpicklingError
  | invalidRangeError
  | valueError
deriving DecidableEq

/-- The spec's `DirectoryCreationError` kind: the `OSError`s that `os.mkdir`
raises when a directory cannot be created (destination already occupied, or
parent missing). -/
def PyErr.isDirectoryCreationError : PyErr → Bool
  | .fileExistsError => true
  | .fileNotFoundError => true
  | _ => false

/-- A filesystem path, as its list of components. -/
abbrev Path := List String

/-- Keyword arguments, as an association list of keyword to (opaque) value. -/
abbrev Kwargs := List (String × String)

/-- Which kinetic scheme a model instance implements. -/
inductive ModelKind where
  | linear
  | hill
  | twostate
deriving DecidableEq

/-- Modelled from the spec: one `add_feedback` call recorded on a model —
a feedback condition with its strength arguments and its `perturbed` flag.
The model classes (`gram/models/*`) are not under `src/`; the spec requires
only that each sweep sample's model "must expose two feedback conditions
(unperturbed and perturbed) sharing identical feedback-strength parameters",
so the embedding records every `add_feedback` call verbatim. -/
structure FeedbackCall where
  strengths : List ℝ
  perturbed : Bool

/-- Modelled from the spec: a kinetic model instance (`gram/models/*` is not
under `src/`).  It records the constructor rate arguments and the sequence of
`add_feedback` calls made on it. -/
structure Model where
  kind : ModelKind
  rates : List ℝ
  feedbacks : List FeedbackCall

/-- Modelled from the spec: `Model.add_feedback` appends one feedback
condition to the model. -/
def Model.add_feedback (m : Model) (strengths : List ℝ) (perturbed : Bool) : Model :=
  { m with feedbacks := m.feedbacks ++ [⟨strengths, perturbed⟩] }

/-- Modelled from the spec: the `LinearModel` constructor
(`gram.models.linear`), recording its six rate-constant arguments. -/
def LinearModel (k0 k1 k2 g0 g1 g2 : ℝ) : Model :=
  ⟨.linear, [k0, k1, k2, g0, g1, g2], []⟩

/-- Modelled from the spec: the `HillModel` constructor
(`gram.models.hill`), recording its six constructor arguments. -/
def HillModel (k1 k_m n k2 g1 g2 : ℝ) : Model :=
  ⟨.hill, [k1, k_m, n, k2, g1, g2], []⟩

/-- Modelled from the spec: the `TwoStateModel` constructor
(`gram.models.twostate`), recording its six rate-constant arguments. -/
def TwoStateModel (k0 k1 k2 g0 g1 g2 : ℝ) : Model :=
  ⟨.twostate, [k0, k1, k2, g0, g1, g2], []⟩

/-- Modelled from the spec: `ConditionSimulation`
(`gram.simulation.environment`, not under `src/`) — "construct with
`(model, **kwargs)`, expose `save(path)`"; `run` executes the simulation and
comparison. -/
structure ConditionSimulation where
  model : Model
  kwargs : Kwargs
  ran : Bool

/-- Modelled from the spec: running a simulation case executes it
(the stochastic engine itself is out of scope; the embedding records that
the case was run with the given simulation/comparison keyword arguments). -/
def ConditionSimulation.run (c : ConditionSimulation) (skwargs ckwargs : Kwargs) :
    ConditionSimulation :=
  { c with ran := true, kwargs := c.kwargs ++ skwargs ++ ckwargs }

/-- Modelled from the spec: the quasi-random log-space sampler of
`gram/sweep/sampling.py` (not under `src/`).  It owns the log10-space
parameter box `[low, high]`. -/
structure LogSampler where
  low : List ℚ
  high : List ℚ

/-- Modelled from the spec: `LogSampler` construction validates the box —
"Fails with `InvalidRangeError` if `low[i] > high[i]` for any i, or if
lengths mismatch." -/
def LogSampler.make (low high : List ℚ) : Except PyErr LogSampler :=
  if low.length ≠ high.length then .error .invalidRangeError
  else if (low.zip high).any (fun lh => decide (lh.2 < lh.1)) then .error .invalidRangeError
  else .ok ⟨low, high⟩

/-- Modelled from the spec: the radical-inverse of `n` in base `b`, the
building block of the deterministic low-discrepancy (Halton/Sobol-type)
unit-hypercube generator.  `fuel` bounds the digit recursion. -/
def radInv (b : ℕ) : ℕ → ℕ → ℚ
  | 0, _ => 0
  | _ + 1, 0 => 0
  | fuel + 1, n + 1 => (((n + 1) % b : ℕ) + radInv b fuel ((n + 1) / b)) / (b : ℚ)

/-- Modelled from the spec: the `i`-th deterministic low-discrepancy point of
the unit hypercube `[0,1]^P` (dimension `j` uses the base-`(j+2)` radical
inverse of `i+1`). -/
def unitPoint (P i : ℕ) : List ℚ :=
  (List.range P).map (fun j => radInv (j + 2) (i + 1) (i + 1))

/-- Modelled from the spec: `LogSampler.sample(N)` — "draw N points in the
unit hypercube `[0,1]^P` from the low-discrepancy generator, affine-map each
coordinate i via `low[i] + point[i]*(high[i]-low[i])`, then apply
component-wise `10^x`". -/
noncomputable def LogSampler.sample (s : LogSampler) (N : ℕ) : List (List ℝ) :=
  (List.range N).map fun i =>
    List.zipWith (fun lh u => (10 : ℝ) ^ (((lh.1 + u * (lh.2 - lh.1) : ℚ) : ℝ)))
      (s.low.zip s.high) (unitPoint s.low.length i)

/-- The `delta` argument as the source accepts it: "float or np.ndarray[float]" —
a scalar or a vector of log-deviations. -/
inductive Delta where
  | scalar (x : ℚ)
  | vec (v : List ℚ)

/-- numpy 1-d broadcasting of a binary arithmetic operation: equal lengths
operate componentwise, a length-one operand is stretched, anything else
raises `ValueError`. -/
def broadcastOp (f : ℚ → ℚ → ℚ) (a b : List ℚ) : Except PyErr (List ℚ) :=
  if a.length = b.length then .ok (List.zipWith f a b)
  else
    match a, b with
    | [x], bs => .ok (bs.map (fun y => f x y))
    | as, [y] => .ok (as.map (fun x => f x y))
    | _, _ => .error .valueError

/-- The numpy expression `base - delta` of `Sweep.__init__`. -/
def Delta.subFrom (base : List ℚ) : Delta → Except PyErr (List ℚ)
  | .scalar x => .ok (base.map (fun b => b - x))
  | .vec v => broadcastOp (fun b d => b - d) base v

/-- The numpy expression `base + delta` of `Sweep.__init__`. -/
def Delta.addTo (base : List ℚ) : Delta → Except PyErr (List ℚ)
  | .scalar x => .ok (base.map (fun b => b + x))
  | .vec v => broadcastOp (fun b d => b + d) base v

/-- The dynamic-dispatch data of a concrete `Sweep` subclass: its class name
(used in the sweep directory name) and its `build_model` implementation
(the abstract per-variant contract `vector[P] -> Model`). -/
structure SweepClass where
  name : String
  build_model : List ℝ → Except PyErr Model

/-- The state of a `Sweep` instance.  Attributes that Python assigns only
later in the object's life (`path`, `parameters`, ...) are `Option`-valued,
`none` meaning the attribute is not set (reading it raises
`AttributeError`).  The `samples` field is part of the attribute model
because `Sweep.N` reads `self.samples`; no operation ever assigns it. -/
structure Sweep where
  cls : SweepClass
  base : List ℚ
  delta : Delta
  sampler : LogSampler
  path : Option Path := none
  scripts_path : Option Path := none
  simulations_path : Option Path := none
  parameters : Option (List (List ℝ)) := none
  simulation_kwargs : Option Kwargs := none
  simulation_paths : Option (List (ℕ × Path)) := none
  samples : Option (List (List ℝ)) := none

/-- Embeds `Sweep.__init__` (source lines 38-52): store `base` and `delta` and
construct the sampler over the box `[base - delta, base + delta]`. -/
def Sweep.init (cls : SweepClass) (base : List ℚ) (delta : Delta) : Except PyErr Sweep :=
  match Delta.subFrom base delta with
  | .error e => .error e
  | .ok low =>
    match Delta.addTo base delta with
    | .error e => .error e
    | .ok high =>
      match LogSampler.make low high with
      | .error e => .error e
      | .ok sampler => .ok { cls := cls, base := base, delta := delta, sampler := sampler }

/-- The contents a file can hold: plain text, a pickled simulation case, or
a pickled sweep (pickle is modelled as a faithful injection of the
serialised object into the file). -/
inductive FileData where
  | text (s : String)
  | simPkl (c : ConditionSimulation)
  | sweepPkl (s : Sweep)

/-- A filesystem entry: a directory or a file with its contents. -/
inductive Entry where
  | dir
  | file (d : FileData)

/-- The filesystem, as a finite map from paths to entries (association list;
the first binding wins, so prepending overwrites). -/
def FS := List (Path × Entry)

/-- Look a path up in the filesystem. -/
def FS.lookup (fs : FS) (p : Path) : Option Entry :=
  match List.find? (fun e => e.1 == p) fs with
  | some e => some e.2
  | none => none

/-- Embeds `os.path.isdir`: the empty path is the always-present working directory. -/
def FS.isdir (fs : FS) (p : Path) : Bool :=
  p.isEmpty ||
    match FS.lookup fs p with
    | some .dir => true
    | _ => false

/-- Embeds `os.mkdir`: raises `FileExistsError` if the path is already occupied and
`FileNotFoundError` if the parent is not a directory. -/
def FS.mkdir (fs : FS) (p : Path) : Except PyErr FS :=
  match FS.lookup fs p with
  | some _ => .error .fileExistsError
  | none =>
    if FS.isdir fs p.dropLast then .ok ((p, Entry.dir) :: fs)
    else .error .fileNotFoundError

/-- Embeds `open(p, 'w')` followed by writing `d`: raises `IsADirectoryError` on a
directory, `FileNotFoundError` if the parent is not a directory; otherwise
creates or truncates the file. -/
def FS.writeFile (fs : FS) (p : Path) (d : FileData) : Except PyErr FS :=
  match FS.lookup fs p with
  | some .dir => .error .isADirectoryError
  | _ =>
    if FS.isdir fs p.dropLast then .ok ((p, Entry.file d) :: fs)
    else .error .fileNotFoundError

/-- Python's decimal formatting `'{:d}'.format(n)` of a natural number. -/
def fmtNat (n : ℕ) : String :=
  if n = 0 then "0"
  else String.mk (((Nat.digits 10 n).map Nat.digitChar).reverse)

/-- Modelled from the spec: `ConditionSimulation.save(path)` persists the
pickled case in the directory at `path`. -/
def ConditionSimulation.save (c : ConditionSimulation) (path : Path) (fs : FS) :
    Except PyErr FS :=
  FS.writeFile fs (path ++ ["simulation.pkl"]) (.simPkl c)

/-- Modelled from the spec: `ConditionSimulation.load(path)` retrieves the
case persisted at `path`. -/
def ConditionSimulation.load (path : Path) (fs : FS) : Except PyErr ConditionSimulation :=
  match FS.lookup fs (path ++ ["simulation.pkl"]) with
  | none => .error .fileNotFoundError
  | some .dir => .error .isADirectoryError
  | some (.file (.simPkl c)) => .ok c
  | some (.file _) => .error .unpicklingError

/-- Embeds `Sweep.initialize` (source lines 66-90): name the sweep directory
`<class name>_<timestamp>` under `dirpath` (`ts` is the second-granularity
wall-clock timestamp string), create it unless a directory of that name is
already present, record the three directory attributes on the sweep, and
create the `scripts` and `simulations` subdirectories.  Attribute
assignments that precede a failing `mkdir` are kept, as in Python. -/
def Sweep.makeSweepDir (s : Sweep) (dirpath : Path) (ts : String) (fs : FS) :
    Sweep × FS × Except PyErr Unit :=
  let name := s.cls.name ++ "_" ++ ts
  let path := dirpath ++ [name]
  match (if ¬ (FS.isdir fs path) then FS.mkdir fs path else .ok fs) with
  | .error e => (s, fs, .error e)
  | .ok fs1 =>
    let s1 := { s with path := some path, scripts_path := some (path ++ ["scripts"]),
                       simulations_path := some (path ++ ["simulations"]) }
    match FS.mkdir fs1 (path ++ ["scripts"]) with
    | .error e => (s1, fs1, .error e)
    | .ok fs2 =>
      match FS.mkdir fs2 (path ++ ["simulations"]) with
      | .error e => (s1, fs2, .error e)
      | .ok fs3 => (s1, fs3, .ok ())

/-- The names bound at module level in `gram/sweep/sweep.py` (imports and
class statements); the free variables of its function bodies resolve against
this scope. -/
def sweepModuleScope : List String :=
  ["join", "abspath", "relpath", "isdir", "mkdir", "chmod", "pardir", "shutil",
   "pickle", "np", "time", "datetime", "LogSampler", "ConditionSimulation",
   "LinearModel", "HillModel", "TwoStateModel", "Sweep", "LinearSweep",
   "HillSweep", "TwoStateSweep"]

/-- The `'{:s} \n'`-formatted manifest line for one simulation path. -/
def manifestLine (p : Path) : String :=
  String.intercalate "/" p ++ " \n"

/-- Embeds `Sweep.write_paths_file` (source lines 172-177): open
`scripts/paths.txt` for writing (creating the empty file), then iterate
`sweep.simulation_paths.values()`.  The bare name `sweep` is a free variable
of the method body and is looked up in the module scope; were it bound to
this sweep object (the evident intent, `self`), the loop would append one
formatted line per recorded simulation path, in insertion order. -/
def Sweep.write_paths_file (s : Sweep) (fs : FS) : FS × Except PyErr Unit :=
  match s.scripts_path with
  | none => (fs, .error (.attributeError "scripts_path"))
  | some sp =>
    match FS.writeFile fs (sp ++ ["paths.txt"]) (.text "") with
    | .error e => (fs, .error e)
    | .ok fs1 =>
      if sweepModuleScope.contains "sweep" then
        match FS.writeFile fs1 (sp ++ ["paths.txt"])
            (.text (String.join (((s.simulation_paths.getD []).map
              (fun ip => manifestLine ip.2))))) with
        | .error e => (fs1, .error e)
        | .ok fs2 => (fs2, .ok ())
      else (fs1, .error (.nameError "sweep"))

/-- Modelled from the spec: the contents of the per-sample run script
`run.py` that `build_submission_script` copies next to the manifest (the
script file itself is not under `src/`; the spec records only "a runnable
per-sample script co-located with the manifest"). -/
def runScriptText : String := "run.py"

/-- The text of the generated cluster job-submission script, line for line
as written by the source (lines 193-226); `sweepPathStr` is the absolute
sweep path interpolated by `'cd {:s}'.format(sweep_path)`. -/
def jobScriptText (sweepPathStr : String) : String :=
  "#!/bin/bash\n" ++
  "while IFS=$\x27\\t\x27 read PATH\n" ++
  "do\n" ++
  "\tJOB=`msub - << EOJ\n\n" ++
  "#! /bin/bash\n" ++
  "#MSUB -A p30653 \n" ++
  "#MSUB -q short \n" ++
  "#MSUB -l walltime=04:00:00 \n" ++
  "#MSUB -m abe \n" ++
  "#MSUB -M sebastian@u.northwestern.edu \n" ++
  "#MSUB -j oe \n" ++
  "#MSUB -l nodes=1:ppn=2 \n" ++
  "#MSUB -l mem=1gb \n\n" ++
  "module load python/anaconda3.6\n\n" ++
  "cd " ++ sweepPathStr ++ " \n\n" ++
  "python scripts/run.py $\\\x7bPATH\x7d\n" ++
  "EOJ\n" ++
  "`\n\n" ++
  "echo \"JobID = $\\\x7bJOB\x7d submitted on `date`\"\n" ++
  "done < /scripts/paths.txt \n" ++
  "exit\n"

/-- Embeds `Sweep.build_submission_script` (source lines 179-232): copy the run
script into the scripts directory, then write the job-submission script
(the final `chmod` changes permissions only, which the filesystem model
does not track). -/
def Sweep.build_submission_script (s : Sweep) (fs : FS) : FS × Except PyErr Unit :=
  match s.path with
  | none => (fs, .error (.attributeError "path"))
  | some p =>
    match FS.writeFile fs (p ++ ["scripts", "run.py"]) (.text runScriptText) with
    | .error e => (fs, .error e)
    | .ok fs1 =>
      match FS.writeFile fs1 (p ++ ["scripts", "job_submission.sh"])
          (.text (jobScriptText (String.intercalate "/" p))) with
      | .error e => (fs1, .error e)
      | .ok fs2 => (fs2, .ok ())

/-- Embeds `Sweep.build_simulation` (source lines 144-170): build the model via the
subclass contract, wrap it in a `ConditionSimulation` configured with the
forwarded keyword arguments, create the per-sample directory unless present,
and persist the case there. -/
def Sweep.build_simulation (cls : SweepClass) (parameters : List ℝ)
    (simulation_path : Path) (kwargs : Kwargs) (fs : FS) : FS × Except PyErr Unit :=
  match cls.build_model parameters with
  | .error e => (fs, .error e)
  | .ok model =>
    let simulation : ConditionSimulation := ⟨model, kwargs, false⟩
    match (if ¬ (FS.isdir fs simulation_path) then FS.mkdir fs simulation_path
           else .ok fs) with
    | .error e => (fs, .error e)
    | .ok fs1 =>
      match ConditionSimulation.save simulation simulation_path fs1 with
      | .error e => (fs1, .error e)
      | .ok fs2 => (fs2, .ok ())

/-- The per-sample simulation directory
`join(self.path, 'simulations', '{:d}'.format(i))` of source line 116. -/
def simDirPath (root : Path) (i : ℕ) : Path :=
  root ++ ["simulations", fmtNat i]

/-- The file in which a sample's simulation case is persisted. -/
def simFilePath (root : Path) (i : ℕ) : Path :=
  simDirPath root i ++ ["simulation.pkl"]

/-- The per-sample loop of `Sweep.build` (source lines 115-118): for each
enumerated sample, form the simulation path `<root>/simulations/<i>`, record
it under key `i`, and build and persist the sample; a raised exception
propagates at once, skipping the remaining iterations. -/
def Sweep.buildLoop (cls : SweepClass) (kwargs : Kwargs) (root : Path) :
    List (ℕ × List ℝ) → Sweep → FS → Sweep × FS × Except PyErr Unit
  | [], s, fs => (s, fs, .ok ())
  | (i, parameters) :: rest, s, fs =>
    let s1 := { s with
      simulation_paths :=
        some ((s.simulation_paths.getD []) ++ [(i, simDirPath root i)]) }
    match Sweep.build_simulation cls parameters (simDirPath root i) kwargs fs with
    | (fs1, .error e) => (s1, fs1, .error e)
    | (fs1, .ok ()) => Sweep.buildLoop cls kwargs root rest s1 fs1

/-- Embeds `Sweep.build` (source lines 92-126): create the sweep directory, sample
`N` parameter vectors, store them with the simulation keyword arguments,
run the per-sample loop, pickle the sweep object to `sweep.pkl`, then write
the paths manifest and the submission script. -/
noncomputable def Sweep.build (s : Sweep) (dirpath : Path) (N : ℕ) (kwargs : Kwargs)
    (ts : String) (fs : FS) : Sweep × FS × Except PyErr Unit :=
  match Sweep.makeSweepDir s dirpath ts fs with
  | (s1, fs1, .error e) => (s1, fs1, .error e)
  | (s1, fs1, .ok ()) =>
    let params := LogSampler.sample s1.sampler N
    let s2 := { s1 with parameters := some params, simulation_kwargs := some kwargs,
                        simulation_paths := some [] }
    match s2.path with
    | none => (s2, fs1, .error (.attributeError "path"))
    | some root =>
      match Sweep.buildLoop s2.cls kwargs root params.enum s2 fs1 with
      | (s3, fs2, .error e) => (s3, fs2, .error e)
      | (s3, fs2, .ok ()) =>
        match FS.writeFile fs2 (root ++ ["sweep.pkl"]) (.sweepPkl s3) with
        | .error e => (s3, fs2, .error e)
        | .ok fs3 =>
          match Sweep.write_paths_file s3 fs3 with
          | (fs4, .error e) => (s3, fs4, .error e)
          | (fs4, .ok ()) =>
            match Sweep.build_submission_script s3 fs4 with
            | (fs5, r) => (s3, fs5, r)

/-- Embeds `Sweep.load` (source lines 59-64): unpickle the sweep state file stored
in the sweep root. -/
def Sweep.load (path : Path) (fs : FS) : Except PyErr Sweep :=
  match FS.lookup fs (path ++ ["sweep.pkl"]) with
  | none => .error .fileNotFoundError
  | some .dir => .error .isADirectoryError
  | some (.file (.sweepPkl s)) => .ok s
  | some (.file _) => .error .unpicklingError

/-- The `Sweep.N` property (source lines 54-57): `return self.samples.shape[0]`,
reading the `samples` attribute. -/
def Sweep.N (s : Sweep) : Except PyErr ℕ :=
  match s.samples with
  | none => .error (.attributeError "samples")
  | some xs => .ok xs.length

/-- Embeds `LinearSweep.build_model` (source lines 271-296): unpack the nine
parameters, build the base linear model, and add the two feedback conditions
with identical strength arguments. -/
def LinearSweep.build_model (parameters : List ℝ) : Except PyErr Model :=
  match parameters with
  | [k0, k1, k2, g0, g1, g2, eta0, eta1, eta2] =>
    let model := LinearModel k0 k1 k2 g0 g1 g2
    let model := Model.add_feedback model [eta0, eta1, eta2] false
    let model := Model.add_feedback model [eta0, eta1, eta2] true
    .ok model
  | _ => .error .valueError

/-- Embeds `HillSweep.build_model` (source lines 335-360): unpack the nine
parameters, build the base Hill model (with `k_m=.5` fixed in the
constructor), and add the two feedback conditions with identical arguments. -/
noncomputable def HillSweep.build_model (parameters : List ℝ) : Except PyErr Model :=
  match parameters with
  | [n, k1, k2, g1, g2, k_m, r_n, eta1, eta2] =>
    let model := HillModel k1 (1 / 2) n k2 g1 g2
    let model := Model.add_feedback model [k_m, r_n, eta1, eta2] false
    let model := Model.add_feedback model [k_m, r_n, eta1, eta2] true
    .ok model
  | _ => .error .valueError

/-- Embeds `TwoStateSweep.build_model` (source lines 398-423): unpack the nine
parameters, build the base two-state model, and add the two feedback
conditions with identical strength arguments. -/
def TwoStateSweep.build_model (parameters : List ℝ) : Except PyErr Model :=
  match parameters with
  | [k0, k1, k2, g0, g1, g2, eta0, eta1, eta2] =>
    let model := TwoStateModel k0 k1 k2 g0 g1 g2
    let model := Model.add_feedback model [eta0, eta1, eta2] false
    let model := Model.add_feedback model [eta0, eta1, eta2] true
    .ok model
  | _ => .error .valueError

/-- The dispatch data of class `LinearSweep`. -/
def LinearSweep.cls : SweepClass := ⟨"LinearSweep", LinearSweep.build_model⟩

/-- The dispatch data of class `HillSweep`. -/
noncomputable def HillSweep.cls : SweepClass := ⟨"HillSweep", HillSweep.build_model⟩

/-- The dispatch data of class `TwoStateSweep`. -/
def TwoStateSweep.cls : SweepClass := ⟨"TwoStateSweep", TwoStateSweep.build_model⟩

/-- The default base parameter vector of `LinearSweep` (source line 266). -/
def LinearSweep.defaultBase : List ℚ :=
  [0, 0, 0, 0, -2, -3, -9/2, -9/2, -9/2]

/-- The default base parameter vector of `HillSweep` (source line 330). -/
def HillSweep.defaultBase : List ℚ :=
  [0, 0, 0, -2, -3, -4, 0, -5, -4]

/-- The default base parameter vector of `TwoStateSweep` (source line 393). -/
def TwoStateSweep.defaultBase : List ℚ :=
  [0, 0, 0, -1, -2, -3, -4, -9/2, -4]

/-- The three concrete sweep variants of the source. -/
inductive SweepVariant where
  | linear
  | hill
  | twostate
deriving DecidableEq

/-- The dispatch data of each concrete sweep variant. -/
noncomputable def SweepVariant.sweepClass : SweepVariant → SweepClass
  | .linear => LinearSweep.cls
  | .hill => HillSweep.cls
  | .twostate => TwoStateSweep.cls

/-- The names bound in the script scope of `gram/execution/run_simulation.py`
by the time its line 24 (`simulation.save(path, ...)`) executes. -/
def runScriptScope : List String :=
  ["time", "ConditionSimulation", "RunArguments", "args", "skwargs", "ckwargs",
   "start_time", "simulation"]

/-- Embeds `run_simulation.py` (source lines 1-29), invoked on a simulation-case
path: build the simulation and comparison keyword arguments from the parsed
script arguments, load the case at the path, run it, then execute
`simulation.save(path, saveall=args['save_all'])`.  The bare name `path` is
a free variable of the script and is looked up in the script scope; were it
bound to the argument path (`args['path'][0]`, the evident intent), the run
case would be persisted back there. -/
def run_simulation (path : Path) (numberOfTrajectories : ℕ)
    (useDeviations _saveAll : Bool) (fs : FS) : FS × Except PyErr Unit :=
  let skwargs : Kwargs := [("N", fmtNat numberOfTrajectories)]
  let ckwargs : Kwargs := [("deviations", if useDeviations then "True" else "False")]
  match ConditionSimulation.load path fs with
  | .error e => (fs, .error e)
  | .ok simulation =>
    let simulation := ConditionSimulation.run simulation skwargs ckwargs
    if runScriptScope.contains "path" then
      match ConditionSimulation.save simulation path fs with
      | .error e => (fs, .error e)
      | .ok fs1 => (fs1, .ok ())
    else (fs, .error (.nameError "path"))

/-- The sweep directory path formed by `Sweep.initialize`:
`<dirpath>/<class name>_<timestamp>`. -/
def sweepRoot (s : Sweep) (dirpath : Path) (ts : String) : Path :=
  dirpath ++ [s.cls.name ++ "_" ++ ts]

/-- A concrete sweep object used to instantiate theorems about `Sweep`. -/
def demoSweep : Sweep :=
  { cls := LinearSweep.cls, base := [0], delta := Delta.scalar 1,
    sampler := ⟨[-1], [1]⟩ }

/-- The `Sweep` states reachable through the embedded operations:
construction, directory initialization, and any outcome of `build`. -/
inductive Sweep.Reachable : Sweep → Prop where
  | init (cls : SweepClass) (base : List ℚ) (delta : Delta) (s : Sweep) :
      Sweep.init cls base delta = .ok s → Sweep.Reachable s
  | mkdirs (s : Sweep) (dirpath : Path) (ts : String) (fs : FS) :
      Sweep.Reachable s → Sweep.Reachable (Sweep.makeSweepDir s dirpath ts fs).1
  | build (s : Sweep) (dirpath : Path) (N : ℕ) (kwargs : Kwargs) (ts : String)
      (fs : FS) :
      Sweep.Reachable s → Sweep.Reachable (Sweep.build s dirpath N kwargs ts fs).1

/-- The sweep object as it stands when `build` serializes it (all samples
built, paths recorded), which is also the state `build` returns when it
subsequently raises inside `write_paths_file`. -/
noncomputable def finalSweep (s : Sweep) (dirpath : Path) (ts : String) (N : ℕ)
    (kwargs : Kwargs) : Sweep :=
  { s with
      path := some (sweepRoot s dirpath ts),
      scripts_path := some (sweepRoot s dirpath ts ++ ["scripts"]),
      simulations_path := some (sweepRoot s dirpath ts ++ ["simulations"]),
      parameters := some (LogSampler.sample s.sampler N),
      simulation_kwargs := some kwargs,
      simulation_paths := some ((LogSampler.sample s.sampler N).enum.map
        (fun x => (x.1, simDirPath (sweepRoot s dirpath ts) x.1))) }

/-- A concrete 9-dimensional sweep object used to instantiate the theorems
about `build`. -/
def demoSweep9 : Sweep :=
  { cls := LinearSweep.cls, base := LinearSweep.defaultBase,
    delta := Delta.scalar (1/2),
    sampler := ⟨[0, 0, 0, 0, 0, 0, 0, 0, 0], [1, 1, 1, 1, 1, 1, 1, 1, 1]⟩ }

/-- A concrete one-dimensional sweep: its sampler draws length-1 vectors,
on which `LinearSweep.build_model` raises `ValueError` (nine parameters are
expected), so the very first sample of any build fails. -/
def demoSweepBad : Sweep :=
  { cls := LinearSweep.cls, base := [0], delta := Delta.scalar 1,
    sampler := ⟨[0], [1]⟩ }

/-- The single parameter vector of `demoSweepBad`'s one-sample draw. -/
noncomputable def demoFailSample : List ℝ :=
  (LogSampler.sample demoSweepBad.sampler 1).headI

/-! ### Filesystem lemmas -/

theorem FS.lookup_cons (k : Path) (v : Entry) (fs : FS) (q : Path) :
    FS.lookup ((k, v) :: fs) q = if k = q then some v else FS.lookup fs q := by
  by_cases h : k = q
  · subst h
    simp [FS.lookup, List.find?]
  · have hb : (k == q) = false := by simpa using h
    simp [FS.lookup, List.find?, hb, h]

theorem FS.isdir_of_lookup_dir {fs : FS} {p : Path}
    (h : FS.lookup fs p = some Entry.dir) : FS.isdir fs p = true := by
  simp [FS.isdir, h]

theorem FS.isdir_eq_of_ne_nil {fs : FS} {p : Path} (h : p ≠ []) :
    FS.isdir fs p =
      (match FS.lookup fs p with | some Entry.dir => true | _ => false) := by
  cases p with
  | nil => exact absurd rfl h
  | cons a l => rfl

theorem FS.isdir_false_of_lookup_none {fs : FS} {p : Path} (h0 : p ≠ [])
    (h : FS.lookup fs p = none) : FS.isdir fs p = false := by
  rw [FS.isdir_eq_of_ne_nil h0, h]

theorem FS.isdir_false_of_lookup_file {fs : FS} {p : Path} {d : FileData} (h0 : p ≠ [])
    (h : FS.lookup fs p = some (Entry.file d)) : FS.isdir fs p = false := by
  rw [FS.isdir_eq_of_ne_nil h0, h]

theorem FS.mkdir_of {fs : FS} {p : Path} (h1 : FS.lookup fs p = none)
    (h2 : FS.isdir fs p.dropLast = true) :
    FS.mkdir fs p = .ok ((p, Entry.dir) :: fs) := by
  simp [FS.mkdir, h1, h2]

theorem FS.mkdir_err_exists {fs : FS} {p : Path} {e : Entry}
    (h : FS.lookup fs p = some e) :
    FS.mkdir fs p = .error .fileExistsError := by
  simp [FS.mkdir, h]

theorem FS.mkdir_err_parent {fs : FS} {p : Path} (h1 : FS.lookup fs p = none)
    (h2 : FS.isdir fs p.dropLast = false) :
    FS.mkdir fs p = .error .fileNotFoundError := by
  simp [FS.mkdir, h1, h2]

theorem FS.mkdir_ok_elim {fs fs' : FS} {p : Path} (h : FS.mkdir fs p = .ok fs') :
    FS.lookup fs p = none ∧ FS.isdir fs p.dropLast = true ∧
      fs' = (p, Entry.dir) :: fs := by
  unfold FS.mkdir at h
  cases hl : FS.lookup fs p with
  | some e => rw [hl] at h; cases h
  | none =>
    rw [hl] at h
    by_cases hd : FS.isdir fs p.dropLast
    · rw [if_pos hd] at h
      cases h
      exact ⟨rfl, hd, rfl⟩
    · rw [if_neg hd] at h
      cases h

theorem FS.writeFile_of {fs : FS} {p : Path} {d : FileData}
    (h1 : FS.lookup fs p ≠ some Entry.dir) (h2 : FS.isdir fs p.dropLast = true) :
    FS.writeFile fs p d = .ok ((p, Entry.file d) :: fs) := by
  unfold FS.writeFile
  cases hl : FS.lookup fs p with
  | none => simp [h2]
  | some e =>
    cases e with
    | dir => exact absurd hl h1
    | file d0 => simp [h2]

theorem FS.writeFile_ok_elim {fs fs' : FS} {p : Path} {d : FileData}
    (h : FS.writeFile fs p d = .ok fs') :
    fs' = (p, Entry.file d) :: fs := by
  unfold FS.writeFile at h
  cases hl : FS.lookup fs p with
  | none =>
    rw [hl] at h
    by_cases hd : FS.isdir fs p.dropLast
    · rw [if_pos hd] at h; cases h; rfl
    · rw [if_neg hd] at h; cases h
  | some e =>
    rw [hl] at h
    cases e with
    | dir => cases h
    | file d0 =>
      by_cases hd : FS.isdir fs p.dropLast
      · rw [if_pos hd] at h; cases h; rfl
      · rw [if_neg hd] at h; cases h

theorem FS.lookup_preserved_mkdir {fs fs' : FS} {p q : Path} {e : Entry}
    (h : FS.mkdir fs p = .ok fs') (hq : FS.lookup fs q = some e) :
    FS.lookup fs' q = some e := by
  obtain ⟨hnone, -, rfl⟩ := FS.mkdir_ok_elim h
  rw [FS.lookup_cons]
  by_cases hpq : p = q
  · subst hpq; rw [hnone] at hq; cases hq
  · rw [if_neg hpq]; exact hq

/-! ### Decimal formatting -/

theorem digitChar_inj_lt10 {d e : ℕ} (hd : d < 10) (he : e < 10)
    (h : Nat.digitChar d = Nat.digitChar e) : d = e := by
  interval_cases d <;> interval_cases e <;> revert h <;> decide

theorem map_digitChar_inj : ∀ l1 l2 : List ℕ, (∀ x ∈ l1, x < 10) →
    (∀ x ∈ l2, x < 10) → l1.map Nat.digitChar = l2.map Nat.digitChar → l1 = l2 := by
  intro l1
  induction l1 with
  | nil =>
    intro l2 _ _ h
    cases l2 with
    | nil => rfl
    | cons b t2 => simp at h
  | cons a t ih =>
    intro l2 h1 h2 h
    cases l2 with
    | nil => simp at h
    | cons b t2 =>
      simp only [List.map_cons, List.cons.injEq] at h
      have hab : a = b :=
        digitChar_inj_lt10 (h1 a (by simp)) (h2 b (by simp)) h.1
      have ht : t = t2 :=
        ih t2 (fun x hx => h1 x (by simp [hx])) (fun x hx => h2 x (by simp [hx])) h.2
      rw [hab, ht]

theorem fmtNat_inj : Function.Injective fmtNat := by
  intro a b h
  unfold fmtNat at h
  by_cases ha : a = 0 <;> by_cases hb : b = 0
  · rw [ha, hb]
  · exfalso
    rw [if_pos ha, if_neg hb] at h
    have hd := congrArg String.data h
    simp only [String.data] at hd
    have h0 : ((Nat.digits 10 b).map Nat.digitChar).reverse = ['0'] := hd.symm
    have h1 : (Nat.digits 10 b).map Nat.digitChar = ['0'] := by
      have := congrArg List.reverse h0
      simpa using this
    have h2 : Nat.digits 10 b = [0] := by
      refine map_digitChar_inj _ [0] (fun x hx => ?_) (by simp) (by simpa using h1)
      exact Nat.digits_lt_base (by norm_num) hx
    have := Nat.ofDigits_digits 10 b
    rw [h2] at this
    simp [Nat.ofDigits] at this
    exact hb this.symm
  · exfalso
    rw [if_neg ha, if_pos hb] at h
    have hd := congrArg String.data h
    simp only [String.data] at hd
    have h1 : (Nat.digits 10 a).map Nat.digitChar = ['0'] := by
      have := congrArg List.reverse hd
      simpa using this
    have h2 : Nat.digits 10 a = [0] := by
      refine map_digitChar_inj _ [0] (fun x hx => ?_) (by simp) (by simpa using h1)
      exact Nat.digits_lt_base (by norm_num) hx
    have := Nat.ofDigits_digits 10 a
    rw [h2] at this
    simp [Nat.ofDigits] at this
    exact ha this.symm
  · rw [if_neg ha, if_neg hb] at h
    have hd := congrArg String.data h
    simp only [String.data] at hd
    have h1 : (Nat.digits 10 a).map Nat.digitChar = (Nat.digits 10 b).map Nat.digitChar := by
      have := congrArg List.reverse hd
      simpa using this
    have h2 : Nat.digits 10 a = Nat.digits 10 b :=
      map_digitChar_inj _ _ (fun x hx => Nat.digits_lt_base (by norm_num) hx)
        (fun x hx => Nat.digits_lt_base (by norm_num) hx) h1
    exact Nat.digits_inj_iff.mp h2

/-! ### Sampler lemmas -/

theorem radInv_nonneg (b : ℕ) : ∀ fuel n : ℕ, 0 ≤ radInv b fuel n := by
  intro fuel
  induction fuel with
  | zero => intro n; simp [radInv]
  | succ f ih =>
    intro n
    cases n with
    | zero => simp [radInv]
    | succ m =>
      unfold radInv
      apply div_nonneg
      · exact add_nonneg (Nat.cast_nonneg _) (ih _)
      · exact Nat.cast_nonneg _

theorem radInv_lt_one {b : ℕ} (hb : 2 ≤ b) : ∀ fuel n : ℕ, radInv b fuel n < 1 := by
  intro fuel
  induction fuel with
  | zero => intro n; simp only [radInv]; norm_num
  | succ f ih =>
    intro n
    cases n with
    | zero => simp only [radInv]; norm_num
    | succ m =>
      unfold radInv
      have hb0 : (0 : ℚ) < (b : ℚ) := by
        have : (0 : ℕ) < b := by omega
        exact_mod_cast this
      rw [div_lt_one hb0]
      have h2 : (((m + 1) % b : ℕ) : ℚ) ≤ (b : ℚ) - 1 := by
        have hmod : (m + 1) % b ≤ b - 1 := by
          have := Nat.mod_lt (m + 1) (y := b) (by omega)
          omega
        have hcast := (Nat.cast_le (α := ℚ)).mpr hmod
        rw [Nat.cast_sub (by omega)] at hcast
        simpa using hcast
      have h3 := ih ((m + 1) / b)
      linarith

theorem unitPoint_length (P i : ℕ) : (unitPoint P i).length = P := by
  simp [unitPoint]

theorem sample_length (s : LogSampler) (N : ℕ) :
    (LogSampler.sample s N).length = N := by
  simp [LogSampler.sample]

theorem mem_sample_length {s : LogSampler} {N : ℕ} {p : List ℝ}
    (hlen : s.low.length = s.high.length) (hp : p ∈ LogSampler.sample s N) :
    p.length = s.low.length := by
  simp only [LogSampler.sample, List.mem_map] at hp
  obtain ⟨i, -, rfl⟩ := hp
  simp only [List.length_zipWith, List.length_zip, unitPoint_length]
  omega

/-- Claim C9: for every valid sampler (equal-length bounds with
`low[i] ≤ high[i]`, dimension at least one) and every positive `N`,
`LogSampler.sample N` returns exactly `N` vectors, each of length `P`, with
every component of every vector lying within `[10^low[i], 10^high[i]]`. -/
theorem logSampler_sample_spec (low high : List ℚ) (s : LogSampler) (N : ℕ)
    (hmk : LogSampler.make low high = .ok s) (hP : 1 ≤ low.length) (hN : 1 ≤ N) :
    (LogSampler.sample s N).length = N ∧
    (∀ p ∈ LogSampler.sample s N, p.length = low.length) ∧
    (∀ p ∈ LogSampler.sample s N, ∀ j : ℕ, j < p.length →
      (10 : ℝ) ^ ((low.getD j 0 : ℚ) : ℝ) ≤ p.getD j 0 ∧
      p.getD j 0 ≤ (10 : ℝ) ^ ((high.getD j 0 : ℚ) : ℝ)) := by
  unfold LogSampler.make at hmk
  by_cases h1 : low.length ≠ high.length
  · rw [if_pos h1] at hmk; cases hmk
  rw [if_neg h1] at hmk
  push_neg at h1
  by_cases h2 : (low.zip high).any (fun lh => decide (lh.2 < lh.1)) = true
  · rw [if_pos h2] at hmk; cases hmk
  rw [if_neg h2] at hmk
  cases hmk
  have hle : ∀ x ∈ low.zip high, x.1 ≤ x.2 := by
    intro x hx
    have := (List.any_eq_false.mp (Bool.eq_false_iff.mpr h2)) x hx
    simpa using this
  refine ⟨sample_length _ _, fun p hp => mem_sample_length h1 hp, ?_⟩
  intro p hp j hj
  have hplen : p.length = low.length := mem_sample_length h1 hp
  simp only [LogSampler.sample, List.mem_map] at hp
  obtain ⟨i, -, rfl⟩ := hp
  rw [hplen] at hj
  have hj2 : j < high.length := h1 ▸ hj
  have hju : j < (unitPoint low.length i).length := by rw [unitPoint_length]; exact hj
  have hjz : j < (low.zip high).length := by
    rw [List.length_zip]; omega
  have hjw : j < (List.zipWith
      (fun lh u => (10 : ℝ) ^ (((lh.1 + u * (lh.2 - lh.1) : ℚ) : ℝ)))
      (low.zip high) (unitPoint low.length i)).length := by
    rw [List.length_zipWith]
    omega
  have hget : (List.zipWith
      (fun lh u => (10 : ℝ) ^ (((lh.1 + u * (lh.2 - lh.1) : ℚ) : ℝ)))
      (low.zip high) (unitPoint low.length i)).getD j 0 =
      (10 : ℝ) ^ (((low[j] + (unitPoint low.length i)[j] * (high[j] - low[j]) : ℚ) : ℝ)) := by
    rw [List.getD_eq_getElem _ _ hjw]
    rw [List.getElem_zipWith]
    rw [List.getElem_zip]
  have hu0 : (0 : ℚ) ≤ (unitPoint low.length i)[j] := by
    have : (unitPoint low.length i)[j] = radInv (j + 2) (i + 1) (i + 1) := by
      simp [unitPoint]
    rw [this]
    exact radInv_nonneg _ _ _
  have hu1 : (unitPoint low.length i)[j] < 1 := by
    have : (unitPoint low.length i)[j] = radInv (j + 2) (i + 1) (i + 1) := by
      simp [unitPoint]
    rw [this]
    exact radInv_lt_one (by omega) _ _
  have hlh : low[j] ≤ high[j] := by
    have hmem : (low[j], high[j]) ∈ low.zip high := by
      have : (low.zip high)[j] = (low[j], high[j]) := List.getElem_zip
      rw [← this]
      exact List.getElem_mem _
    exact hle _ hmem
  have hlowD : low.getD j 0 = low[j] := List.getD_eq_getElem _ _ hj
  have hhighD : high.getD j 0 = high[j] := List.getD_eq_getElem _ _ hj2
  rw [hget, hlowD, hhighD]
  set u := (unitPoint low.length i)[j] with hu
  have hq1 : low[j] ≤ low[j] + u * (high[j] - low[j]) := by nlinarith
  have hq2 : low[j] + u * (high[j] - low[j]) ≤ high[j] := by nlinarith
  constructor
  · rw [Real.rpow_le_rpow_left_iff (by norm_num)]
    exact_mod_cast hq1
  · rw [Real.rpow_le_rpow_left_iff (by norm_num)]
    exact_mod_cast hq2

/-- Witness for claim C9 at `low = [0]`, `high = [1]`, `N = 2`. -/
theorem logSampler_sample_spec_witness :
    (LogSampler.make [0] [1] = .ok (⟨[0], [1]⟩ : LogSampler)) ∧
    1 ≤ ([0] : List ℚ).length ∧ 1 ≤ 2 ∧
    ((LogSampler.sample ⟨[0], [1]⟩ 2).length = 2 ∧
     (∀ p ∈ LogSampler.sample ⟨[0], [1]⟩ 2, p.length = ([0] : List ℚ).length) ∧
     (∀ p ∈ LogSampler.sample ⟨[0], [1]⟩ 2, ∀ j : ℕ, j < p.length →
       (10 : ℝ) ^ ((([0] : List ℚ).getD j 0 : ℚ) : ℝ) ≤ p.getD j 0 ∧
       p.getD j 0 ≤ (10 : ℝ) ^ ((([1] : List ℚ).getD j 0 : ℚ) : ℝ))) :=
  ⟨rfl, by decide, by decide,
   logSampler_sample_spec [0] [1] ⟨[0], [1]⟩ 2 rfl (by decide) (by decide)⟩

/-! ### Claim C6: two feedback conditions per sample -/

/-- Claim C6: for every concrete sweep variant (`LinearSweep`, `HillSweep`,
`TwoStateSweep`) and every 9-component parameter vector, `build_model`
produces a single model on which feedback is added exactly twice — once with
`perturbed=False` and once with `perturbed=True` — and both feedback
conditions receive identical feedback-strength arguments. -/
theorem build_model_two_feedback_conditions (v : SweepVariant) (p : List ℝ)
    (h : p.length = 9) :
    ∃ m : Model, (SweepVariant.sweepClass v).build_model p = .ok m ∧
      m.feedbacks.length = 2 ∧
      ∃ args : List ℝ, m.feedbacks = [⟨args, false⟩, ⟨args, true⟩] := by
  rcases p with _|⟨a1,_|⟨a2,_|⟨a3,_|⟨a4,_|⟨a5,_|⟨a6,_|⟨a7,_|⟨a8,_|⟨a9,_|⟨a10,t⟩⟩⟩⟩⟩⟩⟩⟩⟩⟩ <;>
    simp only [List.length_cons, List.length_nil] at h <;> try omega
  cases v with
  | linear => exact ⟨_, rfl, rfl, [a7, a8, a9], rfl⟩
  | hill => exact ⟨_, rfl, rfl, [a6, a7, a8, a9], rfl⟩
  | twostate => exact ⟨_, rfl, rfl, [a7, a8, a9], rfl⟩

/-- Witness for claim C6 at the `LinearSweep` variant and the zero vector. -/
theorem build_model_two_feedback_conditions_witness :
    ([0, 0, 0, 0, 0, 0, 0, 0, 0] : List ℝ).length = 9 ∧
    ∃ m : Model,
      (SweepVariant.sweepClass .linear).build_model [0, 0, 0, 0, 0, 0, 0, 0, 0] = .ok m ∧
      m.feedbacks.length = 2 ∧
      ∃ args : List ℝ, m.feedbacks = [⟨args, false⟩, ⟨args, true⟩] :=
  ⟨rfl, build_model_two_feedback_conditions .linear _ rfl⟩

/-! ### Claim C7: the sweep's sampling box -/

theorem LogSampler.make_ok_elim {low high : List ℚ} {s : LogSampler}
    (h : LogSampler.make low high = .ok s) :
    s.low = low ∧ s.high = high ∧ low.length = high.length := by
  unfold LogSampler.make at h
  by_cases h1 : low.length ≠ high.length
  · rw [if_pos h1] at h; cases h
  rw [if_neg h1] at h
  push_neg at h1
  by_cases h2 : (low.zip high).any (fun lh => decide (lh.2 < lh.1)) = true
  · rw [if_pos h2] at h; cases h
  rw [if_neg h2] at h
  cases h
  exact ⟨rfl, rfl, h1⟩

/-- Claim C7: for every base vector and every scalar or vector delta,
constructing a `Sweep(base, delta)` creates a `LogSampler` whose log10-space
box is exactly `[base - delta, base + delta]` componentwise, with `base` and
`delta` stored unchanged on the sweep. -/
theorem sweep_init_sampler_box (cls : SweepClass) (base : List ℚ) (delta : Delta)
    (s : Sweep) (h : Sweep.init cls base delta = .ok s) :
    s.base = base ∧ s.delta = delta ∧ s.cls = cls ∧
    Delta.subFrom base delta = .ok s.sampler.low ∧
    Delta.addTo base delta = .ok s.sampler.high ∧
    (∀ x : ℚ, delta = .scalar x →
      s.sampler.low = base.map (fun b => b - x) ∧
      s.sampler.high = base.map (fun b => b + x)) ∧
    (∀ v : List ℚ, delta = .vec v → v.length = base.length →
      s.sampler.low = List.zipWith (fun b d => b - d) base v ∧
      s.sampler.high = List.zipWith (fun b d => b + d) base v) := by
  unfold Sweep.init at h
  split at h
  · simp at h
  rename_i low hsub
  split at h
  · simp at h
  rename_i high hadd
  split at h
  · simp at h
  rename_i sampler hmk
  simp only [Except.ok.injEq] at h
  subst h
  obtain ⟨hsl, hsh, -⟩ := LogSampler.make_ok_elim hmk
  refine ⟨rfl, rfl, rfl, ?_, ?_, ?_, ?_⟩
  · simpa [hsl] using hsub
  · simpa [hsh] using hadd
  · intro x hx
    subst hx
    simp only [Delta.subFrom, Except.ok.injEq] at hsub
    simp only [Delta.addTo, Except.ok.injEq] at hadd
    constructor
    · simp [hsl, ← hsub]
    · simp [hsh, ← hadd]
  · intro v hv hlen
    subst hv
    simp only [Delta.subFrom, broadcastOp, hlen.symm, if_pos, Except.ok.injEq] at hsub
    simp only [Delta.addTo, broadcastOp, hlen.symm, if_pos, Except.ok.injEq] at hadd
    constructor
    · simp [hsl, ← hsub]
    · simp [hsh, ← hadd]

/-- Witness for claim C7 at `cls = LinearSweep`, `base = [0]`,
`delta = scalar 1`. -/
theorem sweep_init_sampler_box_witness :
    Sweep.init LinearSweep.cls [0] (Delta.scalar 1) =
      .ok { cls := LinearSweep.cls, base := [0], delta := Delta.scalar 1,
            sampler := ⟨[-1], [1]⟩ } ∧
    (let s : Sweep := { cls := LinearSweep.cls, base := [0],
                        delta := Delta.scalar 1, sampler := ⟨[-1], [1]⟩ }
     s.base = [0] ∧ s.delta = Delta.scalar 1 ∧ s.cls = LinearSweep.cls ∧
     Delta.subFrom [0] (Delta.scalar 1) = .ok s.sampler.low ∧
     Delta.addTo [0] (Delta.scalar 1) = .ok s.sampler.high ∧
     (∀ x : ℚ, Delta.scalar 1 = .scalar x →
       s.sampler.low = ([0] : List ℚ).map (fun b => b - x) ∧
       s.sampler.high = ([0] : List ℚ).map (fun b => b + x)) ∧
     (∀ v : List ℚ, Delta.scalar 1 = .vec v → v.length = ([0] : List ℚ).length →
       s.sampler.low = List.zipWith (fun b d => b - d) [0] v ∧
       s.sampler.high = List.zipWith (fun b d => b + d) [0] v)) := by
  have h : Sweep.init LinearSweep.cls [0] (Delta.scalar 1) =
      .ok { cls := LinearSweep.cls, base := [0], delta := Delta.scalar 1,
            sampler := ⟨[-1], [1]⟩ } := by
    simp only [Sweep.init, Delta.subFrom, Delta.addTo, LogSampler.make]
    norm_num
  exact ⟨h, sweep_init_sampler_box LinearSweep.cls [0] (Delta.scalar 1) _ h⟩

/-! ### Claim C5: sweep directory creation -/

theorem path_ne_of_ext_ne {a b : List String} (root : Path) (h : a ≠ b) :
    root ++ a ≠ root ++ b :=
  fun hc => h (List.append_cancel_left hc)

theorem path_ne_append_cons (root : Path) (a : String) (l : List String) :
    root ≠ root ++ a :: l := by
  intro h
  have h2 : root ++ [] = root ++ a :: l := by simpa using h
  cases List.append_cancel_left h2

/-- A fresh, successful `Sweep.initialize`: under an existing `dirpath`, with
nothing yet under the sweep root, it creates the root, `scripts` and
`simulations` directories and records the three path attributes. -/
theorem makeSweepDir_fresh (s : Sweep) (dirpath : Path) (ts : String) (fs : FS)
    (hdir : FS.isdir fs dirpath = true)
    (hfresh : ∀ q : Path, FS.lookup fs (sweepRoot s dirpath ts ++ q) = none) :
    Sweep.makeSweepDir s dirpath ts fs =
      ({ s with path := some (sweepRoot s dirpath ts),
                scripts_path := some (sweepRoot s dirpath ts ++ ["scripts"]),
                simulations_path := some (sweepRoot s dirpath ts ++ ["simulations"]) },
       (sweepRoot s dirpath ts ++ ["simulations"], Entry.dir) ::
         (sweepRoot s dirpath ts ++ ["scripts"], Entry.dir) ::
           (sweepRoot s dirpath ts, Entry.dir) :: fs,
       .ok ()) := by
  have hne : sweepRoot s dirpath ts ≠ [] := by simp [sweepRoot]
  have h0 : FS.lookup fs (sweepRoot s dirpath ts) = none := by simpa using hfresh []
  have hnotdir : FS.isdir fs (sweepRoot s dirpath ts) = false :=
    FS.isdir_false_of_lookup_none hne h0
  have hdrop : (sweepRoot s dirpath ts).dropLast = dirpath := by simp [sweepRoot]
  have hmk1 : FS.mkdir fs (sweepRoot s dirpath ts) =
      .ok ((sweepRoot s dirpath ts, Entry.dir) :: fs) :=
    FS.mkdir_of h0 (by rw [hdrop]; exact hdir)
  have hlook2 : FS.lookup ((sweepRoot s dirpath ts, Entry.dir) :: fs)
      (sweepRoot s dirpath ts ++ ["scripts"]) = none := by
    rw [FS.lookup_cons, if_neg (path_ne_append_cons _ _ _)]
    exact hfresh ["scripts"]
  have hdrop2 : (sweepRoot s dirpath ts ++ ["scripts"]).dropLast = sweepRoot s dirpath ts :=
    List.dropLast_concat
  have hmk2 : FS.mkdir ((sweepRoot s dirpath ts, Entry.dir) :: fs)
      (sweepRoot s dirpath ts ++ ["scripts"]) =
      .ok ((sweepRoot s dirpath ts ++ ["scripts"], Entry.dir) ::
        (sweepRoot s dirpath ts, Entry.dir) :: fs) := by
    refine FS.mkdir_of hlook2 ?_
    rw [hdrop2]
    exact FS.isdir_of_lookup_dir (by rw [FS.lookup_cons, if_pos rfl])
  have hlook3 : FS.lookup ((sweepRoot s dirpath ts ++ ["scripts"], Entry.dir) ::
      (sweepRoot s dirpath ts, Entry.dir) :: fs)
      (sweepRoot s dirpath ts ++ ["simulations"]) = none := by
    rw [FS.lookup_cons, if_neg (path_ne_of_ext_ne _ (by decide))]
    rw [FS.lookup_cons, if_neg (path_ne_append_cons _ _ _)]
    exact hfresh ["simulations"]
  have hmk3 : FS.mkdir ((sweepRoot s dirpath ts ++ ["scripts"], Entry.dir) ::
      (sweepRoot s dirpath ts, Entry.dir) :: fs)
      (sweepRoot s dirpath ts ++ ["simulations"]) =
      .ok ((sweepRoot s dirpath ts ++ ["simulations"], Entry.dir) ::
        (sweepRoot s dirpath ts ++ ["scripts"], Entry.dir) ::
          (sweepRoot s dirpath ts, Entry.dir) :: fs) := by
    refine FS.mkdir_of hlook3 ?_
    rw [List.dropLast_concat]
    refine FS.isdir_of_lookup_dir ?_
    rw [FS.lookup_cons, if_neg (path_ne_append_cons _ "scripts" []).symm]
    rw [FS.lookup_cons, if_pos rfl]
  show Sweep.makeSweepDir s dirpath ts fs = _
  unfold Sweep.makeSweepDir
  dsimp only
  rw [show dirpath ++ [s.cls.name ++ "_" ++ ts] = sweepRoot s dirpath ts from rfl]
  rw [if_pos (by simp [hnotdir])]
  rw [hmk1]
  dsimp only
  rw [hmk2]
  dsimp only
  rw [hmk3]

/-- The embedded `Sweep.initialize` never deletes or replaces a filesystem entry: every
binding present beforehand is still found afterwards, in all control-flow
branches. -/
theorem makeSweepDir_preserves (s : Sweep) (dirpath : Path) (ts : String) (fs : FS)
    (q : Path) (e : Entry) (hq : FS.lookup fs q = some e) :
    FS.lookup (Sweep.makeSweepDir s dirpath ts fs).2.1 q = some e := by
  unfold Sweep.makeSweepDir
  cases hstep1 : (if ¬ (FS.isdir fs (dirpath ++ [s.cls.name ++ "_" ++ ts]))
      then FS.mkdir fs (dirpath ++ [s.cls.name ++ "_" ++ ts]) else .ok fs) with
  | error e1 => simp only [hstep1]; exact hq
  | ok fs1 =>
    have h1 : FS.lookup fs1 q = some e := by
      by_cases hc : FS.isdir fs (dirpath ++ [s.cls.name ++ "_" ++ ts])
      · rw [if_neg (by simp [hc])] at hstep1
        cases hstep1
        exact hq
      · rw [if_pos (by simp [hc])] at hstep1
        exact FS.lookup_preserved_mkdir hstep1 hq
    simp only [hstep1]
    cases hstep2 : FS.mkdir fs1 (dirpath ++ [s.cls.name ++ "_" ++ ts] ++ ["scripts"]) with
    | error e2 => simp only []; exact h1
    | ok fs2 =>
      have h2 : FS.lookup fs2 q = some e := FS.lookup_preserved_mkdir hstep2 h1
      simp only []
      cases hstep3 : FS.mkdir fs2 (dirpath ++ [s.cls.name ++ "_" ++ ts] ++ ["simulations"]) with
      | error e3 => simp only []; exact h2
      | ok fs3 => exact FS.lookup_preserved_mkdir hstep3 h2

/-- The embedded `Sweep.initialize` fails when the target's parent directory is absent:
`os.mkdir` raises a directory-creation error. -/
theorem makeSweepDir_err_no_parent (s : Sweep) (dirpath : Path) (ts : String) (fs : FS)
    (h0 : FS.lookup fs (sweepRoot s dirpath ts) = none)
    (hdir : FS.isdir fs dirpath = false) :
    ∃ e : PyErr, (Sweep.makeSweepDir s dirpath ts fs).2.2 = .error e ∧
      PyErr.isDirectoryCreationError e = true := by
  have hne : sweepRoot s dirpath ts ≠ [] := by simp [sweepRoot]
  have hnotdir : FS.isdir fs (sweepRoot s dirpath ts) = false :=
    FS.isdir_false_of_lookup_none hne h0
  have hdrop : (sweepRoot s dirpath ts).dropLast = dirpath := by simp [sweepRoot]
  have hmk : FS.mkdir fs (sweepRoot s dirpath ts) = .error .fileNotFoundError :=
    FS.mkdir_err_parent h0 (by rw [hdrop]; exact hdir)
  refine ⟨.fileNotFoundError, ?_, rfl⟩
  unfold Sweep.makeSweepDir
  dsimp only
  rw [show dirpath ++ [s.cls.name ++ "_" ++ ts] = sweepRoot s dirpath ts from rfl]
  rw [if_pos (by simp [hnotdir]), hmk]

/-- The embedded `Sweep.initialize` fails when the destination is already occupied by a
file: `os.mkdir` raises a directory-creation error. -/
theorem makeSweepDir_err_file_in_way (s : Sweep) (dirpath : Path) (ts : String) (fs : FS)
    (d : FileData)
    (h0 : FS.lookup fs (sweepRoot s dirpath ts) = some (Entry.file d)) :
    ∃ e : PyErr, (Sweep.makeSweepDir s dirpath ts fs).2.2 = .error e ∧
      PyErr.isDirectoryCreationError e = true := by
  have hne : sweepRoot s dirpath ts ≠ [] := by simp [sweepRoot]
  have hnotdir : FS.isdir fs (sweepRoot s dirpath ts) = false :=
    FS.isdir_false_of_lookup_file hne h0
  have hmk : FS.mkdir fs (sweepRoot s dirpath ts) = .error .fileExistsError :=
    FS.mkdir_err_exists h0
  refine ⟨.fileExistsError, ?_, rfl⟩
  unfold Sweep.makeSweepDir
  dsimp only
  rw [show dirpath ++ [s.cls.name ++ "_" ++ ts] = sweepRoot s dirpath ts from rfl]
  rw [if_pos (by simp [hnotdir]), hmk]

/-- Claim C5: `initialize(dirpath)` creates a sweep directory named
`<subtype name>_<timestamp>` under `dirpath`, with `scripts` and
`simulations` subdirectories; it does not overwrite an existing entry of the
same name (every pre-existing binding survives, in every control-flow
branch); and it fails with a directory-creation error when the destination
cannot be created (parent directory missing, or a file standing at the
destination path). -/
theorem sweep_directory_creation_spec :
    (∀ (s : Sweep) (dirpath : Path) (ts : String) (fs : FS),
      FS.isdir fs dirpath = true →
      (∀ q : Path, FS.lookup fs (sweepRoot s dirpath ts ++ q) = none) →
      (Sweep.makeSweepDir s dirpath ts fs).2.2 = .ok () ∧
      (Sweep.makeSweepDir s dirpath ts fs).1.path = some (sweepRoot s dirpath ts) ∧
      (Sweep.makeSweepDir s dirpath ts fs).1.scripts_path =
        some (sweepRoot s dirpath ts ++ ["scripts"]) ∧
      (Sweep.makeSweepDir s dirpath ts fs).1.simulations_path =
        some (sweepRoot s dirpath ts ++ ["simulations"]) ∧
      FS.lookup (Sweep.makeSweepDir s dirpath ts fs).2.1 (sweepRoot s dirpath ts) =
        some Entry.dir ∧
      FS.lookup (Sweep.makeSweepDir s dirpath ts fs).2.1
        (sweepRoot s dirpath ts ++ ["scripts"]) = some Entry.dir ∧
      FS.lookup (Sweep.makeSweepDir s dirpath ts fs).2.1
        (sweepRoot s dirpath ts ++ ["simulations"]) = some Entry.dir) ∧
    (∀ (s : Sweep) (dirpath : Path) (ts : String) (fs : FS) (q : Path) (e : Entry),
      FS.lookup fs q = some e →
      FS.lookup (Sweep.makeSweepDir s dirpath ts fs).2.1 q = some e) ∧
    (∀ (s : Sweep) (dirpath : Path) (ts : String) (fs : FS),
      FS.lookup fs (sweepRoot s dirpath ts) = none → FS.isdir fs dirpath = false →
      ∃ e : PyErr, (Sweep.makeSweepDir s dirpath ts fs).2.2 = .error e ∧
        PyErr.isDirectoryCreationError e = true) ∧
    (∀ (s : Sweep) (dirpath : Path) (ts : String) (fs : FS) (d : FileData),
      FS.lookup fs (sweepRoot s dirpath ts) = some (Entry.file d) →
      ∃ e : PyErr, (Sweep.makeSweepDir s dirpath ts fs).2.2 = .error e ∧
        PyErr.isDirectoryCreationError e = true) := by
  refine ⟨?_, makeSweepDir_preserves, makeSweepDir_err_no_parent,
    makeSweepDir_err_file_in_way⟩
  intro s dirpath ts fs hdir hfresh
  rw [makeSweepDir_fresh s dirpath ts fs hdir hfresh]
  dsimp only
  refine ⟨rfl, rfl, rfl, rfl, ?_, ?_, ?_⟩
  · rw [FS.lookup_cons, if_neg (path_ne_append_cons _ "simulations" []).symm,
      FS.lookup_cons, if_neg (path_ne_append_cons _ "scripts" []).symm,
      FS.lookup_cons, if_pos rfl]
  · rw [FS.lookup_cons, if_neg (path_ne_of_ext_ne _ (by decide)),
      FS.lookup_cons, if_pos rfl]
  · rw [FS.lookup_cons, if_pos rfl]

/-- Witness for claim C5, at a concrete sweep, timestamp and filesystems:
a fresh build under an existing `/tmp`, preservation of the `/tmp` binding,
failure under an empty filesystem (missing parent), and failure with a file
standing at the destination. -/
theorem sweep_directory_creation_spec_witness :
    (FS.isdir [(["tmp"], Entry.dir)] ["tmp"] = true) ∧
    (∀ q : Path, FS.lookup [(["tmp"], Entry.dir)]
      (sweepRoot demoSweep ["tmp"] "250101_120000" ++ q) = none) ∧
    ((Sweep.makeSweepDir demoSweep ["tmp"] "250101_120000"
        [(["tmp"], Entry.dir)]).2.2 = .ok () ∧
     (Sweep.makeSweepDir demoSweep ["tmp"] "250101_120000"
        [(["tmp"], Entry.dir)]).1.path =
       some (sweepRoot demoSweep ["tmp"] "250101_120000") ∧
     (Sweep.makeSweepDir demoSweep ["tmp"] "250101_120000"
        [(["tmp"], Entry.dir)]).1.scripts_path =
       some (sweepRoot demoSweep ["tmp"] "250101_120000" ++ ["scripts"]) ∧
     (Sweep.makeSweepDir demoSweep ["tmp"] "250101_120000"
        [(["tmp"], Entry.dir)]).1.simulations_path =
       some (sweepRoot demoSweep ["tmp"] "250101_120000" ++ ["simulations"]) ∧
     FS.lookup (Sweep.makeSweepDir demoSweep ["tmp"] "250101_120000"
        [(["tmp"], Entry.dir)]).2.1 (sweepRoot demoSweep ["tmp"] "250101_120000") =
       some Entry.dir ∧
     FS.lookup (Sweep.makeSweepDir demoSweep ["tmp"] "250101_120000"
        [(["tmp"], Entry.dir)]).2.1
       (sweepRoot demoSweep ["tmp"] "250101_120000" ++ ["scripts"]) = some Entry.dir ∧
     FS.lookup (Sweep.makeSweepDir demoSweep ["tmp"] "250101_120000"
        [(["tmp"], Entry.dir)]).2.1
       (sweepRoot demoSweep ["tmp"] "250101_120000" ++ ["simulations"]) =
         some Entry.dir) ∧
    (FS.lookup [(["tmp"], Entry.dir)] ["tmp"] = some Entry.dir) ∧
    (FS.lookup (Sweep.makeSweepDir demoSweep ["tmp"] "250101_120000"
        [(["tmp"], Entry.dir)]).2.1 ["tmp"] = some Entry.dir) ∧
    (FS.lookup ([] : FS) (sweepRoot demoSweep ["tmp"] "250101_120000") = none) ∧
    (FS.isdir ([] : FS) ["tmp"] = false) ∧
    (∃ e : PyErr, (Sweep.makeSweepDir demoSweep ["tmp"] "250101_120000"
        ([] : FS)).2.2 = .error e ∧ PyErr.isDirectoryCreationError e = true) ∧
    (FS.lookup [(sweepRoot demoSweep ["tmp"] "250101_120000",
        Entry.file (FileData.text "x")), (["tmp"], Entry.dir)]
      (sweepRoot demoSweep ["tmp"] "250101_120000") =
        some (Entry.file (FileData.text "x"))) ∧
    (∃ e : PyErr, (Sweep.makeSweepDir demoSweep ["tmp"] "250101_120000"
        [(sweepRoot demoSweep ["tmp"] "250101_120000",
          Entry.file (FileData.text "x")), (["tmp"], Entry.dir)]).2.2 = .error e ∧
      PyErr.isDirectoryCreationError e = true) :=
  ⟨rfl, fun _ => rfl,
   sweep_directory_creation_spec.1 demoSweep ["tmp"] "250101_120000"
     [(["tmp"], Entry.dir)] rfl (fun _ => rfl),
   rfl,
   sweep_directory_creation_spec.2.1 demoSweep ["tmp"] "250101_120000"
     [(["tmp"], Entry.dir)] ["tmp"] Entry.dir rfl,
   rfl, rfl,
   sweep_directory_creation_spec.2.2.1 demoSweep ["tmp"] "250101_120000" [] rfl rfl,
   rfl,
   sweep_directory_creation_spec.2.2.2 demoSweep ["tmp"] "250101_120000"
     [(sweepRoot demoSweep ["tmp"] "250101_120000",
       Entry.file (FileData.text "x")), (["tmp"], Entry.dir)]
     (FileData.text "x") rfl⟩

/-! ### Claim C8: the per-sample run entry point -/

/-- Claim C8 (code bug): invoked on the path of a persisted simulation case,
the run script loads the case and runs it, but then fails with
`NameError` on the unbound name `path` at the save step — line 24 of
`run_simulation.py` reads the bare name `path`, which the script never
binds — so the results are never persisted and the filesystem is returned
unchanged. -/
theorem run_simulation_name_error (p : Path) (c : ConditionSimulation) (fs : FS)
    (nTraj : ℕ) (useDev saveAll : Bool)
    (h : FS.lookup fs (p ++ ["simulation.pkl"]) = some (Entry.file (.simPkl c))) :
    run_simulation p nTraj useDev saveAll fs = (fs, .error (.nameError "path")) := by
  have hload : ConditionSimulation.load p fs = .ok c := by
    unfold ConditionSimulation.load
    rw [h]
  unfold run_simulation
  dsimp only
  rw [hload]
  dsimp only
  rw [if_neg (by decide)]

/-- Witness for claim C8 at a concrete filesystem holding one persisted
simulation case. -/
theorem run_simulation_name_error_witness :
    (FS.lookup [(["sim0", "simulation.pkl"],
        Entry.file (FileData.simPkl ⟨⟨ModelKind.linear, [], []⟩, [], false⟩))]
      (["sim0"] ++ ["simulation.pkl"]) =
      some (Entry.file (FileData.simPkl ⟨⟨ModelKind.linear, [], []⟩, [], false⟩))) ∧
    run_simulation ["sim0"] 100 false false
      [(["sim0", "simulation.pkl"],
        Entry.file (FileData.simPkl ⟨⟨ModelKind.linear, [], []⟩, [], false⟩))] =
      ([(["sim0", "simulation.pkl"],
        Entry.file (FileData.simPkl ⟨⟨ModelKind.linear, [], []⟩, [], false⟩))],
       .error (.nameError "path")) :=
  ⟨rfl, run_simulation_name_error ["sim0"] _ _ 100 false false rfl⟩

/-! ### Claim C10: the `N` property always raises -/

theorem makeSweepDir_samples (s : Sweep) (dirpath : Path) (ts : String) (fs : FS) :
    (Sweep.makeSweepDir s dirpath ts fs).1.samples = s.samples := by
  unfold Sweep.makeSweepDir
  dsimp only
  split
  · rfl
  split
  · rfl
  split <;> rfl

theorem buildLoop_samples (cls : SweepClass) (kwargs : Kwargs) (root : Path) :
    ∀ (items : List (ℕ × List ℝ)) (s : Sweep) (fs : FS),
    (Sweep.buildLoop cls kwargs root items s fs).1.samples = s.samples := by
  intro items
  induction items with
  | nil => intro s fs; rfl
  | cons x rest ih =>
    intro s fs
    obtain ⟨i, p⟩ := x
    unfold Sweep.buildLoop
    dsimp only
    split
    · rfl
    rw [ih]

theorem build_samples (s : Sweep) (dirpath : Path) (N : ℕ) (kwargs : Kwargs)
    (ts : String) (fs : FS) :
    (Sweep.build s dirpath N kwargs ts fs).1.samples = s.samples := by
  unfold Sweep.build
  split
  · rename_i s1 fs1 e heq
    have h := makeSweepDir_samples s dirpath ts fs
    rw [heq] at h
    exact h
  rename_i s1 fs1 heq
  have h1 : s1.samples = s.samples := by
    have h := makeSweepDir_samples s dirpath ts fs
    rw [heq] at h
    exact h
  dsimp only
  split
  · exact h1
  rename_i root hroot
  split
  · rename_i s3 fs2 e heq2
    have h := buildLoop_samples s1.cls kwargs root
      (LogSampler.sample s1.sampler N).enum
      { s1 with parameters := some (LogSampler.sample s1.sampler N),
                simulation_kwargs := some kwargs, simulation_paths := some [] } fs1
    rw [heq2] at h
    exact h.trans h1
  rename_i s3 fs2 heq2
  have h3 : s3.samples = s.samples := by
    have h := buildLoop_samples s1.cls kwargs root
      (LogSampler.sample s1.sampler N).enum
      { s1 with parameters := some (LogSampler.sample s1.sampler N),
                simulation_kwargs := some kwargs, simulation_paths := some [] } fs1
    rw [heq2] at h
    exact h.trans h1
  split
  · exact h3
  split
  · exact h3
  rcases hbs : Sweep.build_submission_script s3 _ with ⟨fs5, r⟩
  exact h3

theorem init_samples_none {cls : SweepClass} {base : List ℚ} {delta : Delta}
    {s : Sweep} (h : Sweep.init cls base delta = .ok s) : s.samples = none := by
  unfold Sweep.init at h
  split at h
  · cases h
  split at h
  · cases h
  split at h
  · cases h
  simp only [Except.ok.injEq] at h
  subst h
  rfl

/-- Claim C10: reading the `N` property of any `Sweep` raises
`AttributeError` in every reachable state, including after any `build`: the
property reads `self.samples`, but no `Sweep` operation ever assigns a
`samples` attribute. -/
theorem sweep_N_attribute_error (s : Sweep) (h : Sweep.Reachable s) :
    s.samples = none ∧ Sweep.N s = .error (.attributeError "samples") := by
  have hs : s.samples = none := by
    induction h with
    | init cls base delta s hinit => exact init_samples_none hinit
    | mkdirs s dirpath ts fs hr ih => rw [makeSweepDir_samples]; exact ih
    | build s dirpath N kwargs ts fs hr ih => rw [build_samples]; exact ih
  refine ⟨hs, ?_⟩
  unfold Sweep.N
  rw [hs]

/-- Witness for claim C10: a freshly constructed sweep is reachable and its
`N` property raises `AttributeError`. -/
theorem sweep_N_attribute_error_witness :
    Sweep.Reachable demoSweep ∧
    (demoSweep.samples = none ∧
      Sweep.N demoSweep = .error (.attributeError "samples")) := by
  have hinit : Sweep.init LinearSweep.cls [0] (Delta.scalar 1) = .ok demoSweep := by
    simp only [Sweep.init, Delta.subFrom, Delta.addTo, LogSampler.make, demoSweep]
    norm_num
  have hr : Sweep.Reachable demoSweep :=
    Sweep.Reachable.init LinearSweep.cls [0] (Delta.scalar 1) demoSweep hinit
  exact ⟨hr, sweep_N_attribute_error demoSweep hr⟩

/-! ### The per-sample loop of `build` -/

theorem simDirPath_ne_nil (root : Path) (i : ℕ) : simDirPath root i ≠ [] := by
  simp [simDirPath]

theorem simDirPath_eq_concat (root : Path) (i : ℕ) :
    simDirPath root i = (root ++ ["simulations"]) ++ [fmtNat i] := by
  simp [simDirPath]

theorem simDirPath_dropLast (root : Path) (i : ℕ) :
    (simDirPath root i).dropLast = root ++ ["simulations"] := by
  rw [simDirPath_eq_concat]
  exact List.dropLast_concat

theorem simFilePath_dropLast (root : Path) (i : ℕ) :
    (simFilePath root i).dropLast = simDirPath root i :=
  List.dropLast_concat

theorem simDirPath_inj {root : Path} {i j : ℕ} (h : simDirPath root i = simDirPath root j) :
    i = j := by
  simp only [simDirPath, List.append_cancel_left_eq, List.cons.injEq, and_true,
    true_and] at h
  exact fmtNat_inj h

theorem simDirPath_ne_simFilePath (root : Path) (i j : ℕ) :
    simDirPath root i ≠ simFilePath root j := by
  simp [simDirPath, simFilePath]

theorem simDirPath_append_eq_dir {root : Path} {i j : ℕ} {q : Path}
    (h : simDirPath root i ++ q = simDirPath root j) : i = j ∧ q = [] := by
  rw [simDirPath, simDirPath, List.append_assoc] at h
  have h2 := List.append_cancel_left h
  simp only [List.cons_append, List.nil_append, List.cons.injEq, true_and] at h2
  exact ⟨fmtNat_inj h2.1, h2.2⟩

theorem simDirPath_append_eq_file {root : Path} {i j : ℕ} {q : Path}
    (h : simDirPath root i ++ q = simFilePath root j) :
    i = j ∧ q = ["simulation.pkl"] := by
  rw [simFilePath, simDirPath, simDirPath, List.append_assoc, List.append_assoc] at h
  have h2 := List.append_cancel_left h
  simp only [List.cons_append, List.nil_append, List.cons.injEq, true_and] at h2
  exact ⟨fmtNat_inj h2.1, h2.2⟩

theorem FS.lookup_dir_of_isdir {fs : FS} {p : Path} (h0 : p ≠ [])
    (h : FS.isdir fs p = true) : FS.lookup fs p = some Entry.dir := by
  rw [FS.isdir_eq_of_ne_nil h0] at h
  cases hl : FS.lookup fs p with
  | none => rw [hl] at h; simp at h
  | some e =>
    cases e with
    | dir => rfl
    | file d => rw [hl] at h; simp at h

/-- A failing `build_model` makes `build_simulation` raise at once, leaving
the filesystem untouched. -/
theorem build_simulation_err (cls : SweepClass) (p : List ℝ) (sp : Path)
    (kwargs : Kwargs) (fs : FS) (e : PyErr) (hm : cls.build_model p = .error e) :
    Sweep.build_simulation cls p sp kwargs fs = (fs, .error e) := by
  unfold Sweep.build_simulation
  rw [hm]

/-- A successful `build_simulation` at a fresh per-sample directory: it
creates the directory and persists the case inside it. -/
theorem build_simulation_ok (cls : SweepClass) (p : List ℝ) (root : Path) (i : ℕ)
    (kwargs : Kwargs) (fs : FS) (m : Model) (hm : cls.build_model p = .ok m)
    (hfresh : ∀ q : Path, FS.lookup fs (simDirPath root i ++ q) = none)
    (hparent : FS.isdir fs (root ++ ["simulations"]) = true) :
    Sweep.build_simulation cls p (simDirPath root i) kwargs fs =
      ((simFilePath root i, Entry.file (.simPkl ⟨m, kwargs, false⟩)) ::
        (simDirPath root i, Entry.dir) :: fs, .ok ()) := by
  unfold Sweep.build_simulation
  rw [hm]
  dsimp only
  have h0 : FS.lookup fs (simDirPath root i) = none := by simpa using hfresh []
  have hnd : FS.isdir fs (simDirPath root i) = false :=
    FS.isdir_false_of_lookup_none (simDirPath_ne_nil root i) h0
  rw [if_pos (by simp [hnd])]
  rw [FS.mkdir_of h0 (by rw [simDirPath_dropLast]; exact hparent)]
  dsimp only
  unfold ConditionSimulation.save
  have hl : FS.lookup ((simDirPath root i, Entry.dir) :: fs)
      (simDirPath root i ++ ["simulation.pkl"]) = none := by
    rw [FS.lookup_cons, if_neg (path_ne_append_cons _ _ _)]
    exact hfresh ["simulation.pkl"]
  rw [FS.writeFile_of (by rw [hl]; simp)
    (by rw [show simDirPath root i ++ ["simulation.pkl"] = simFilePath root i from rfl,
          simFilePath_dropLast]
        exact FS.isdir_of_lookup_dir (by rw [FS.lookup_cons, if_pos rfl]))]
  rfl

/-- The per-sample loop, when every model build succeeds on a filesystem
where the `simulations` directory exists and every per-sample directory is
fresh: it records the simulation paths in order and creates exactly the
per-sample directories and case files. -/
theorem buildLoop_ok (cls : SweepClass) (kwargs : Kwargs) (root : Path) :
    ∀ (items : List (ℕ × List ℝ)) (s : Sweep) (l : List (ℕ × Path)) (fs : FS),
    s.simulation_paths = some l →
    (∀ x ∈ items, ∃ m, cls.build_model x.2 = .ok m) →
    FS.isdir fs (root ++ ["simulations"]) = true →
    (∀ x ∈ items, ∀ q : Path, FS.lookup fs (simDirPath root x.1 ++ q) = none) →
    (items.map (fun x => fmtNat x.1)).Nodup →
    ∃ fs' : FS,
      Sweep.buildLoop cls kwargs root items s fs =
        ({ s with
            simulation_paths :=
              some (l ++ items.map (fun x => (x.1, simDirPath root x.1))) },
         fs', .ok ()) ∧
      (∀ x ∈ items, FS.lookup fs' (simDirPath root x.1) = some Entry.dir) ∧
      (∀ x ∈ items, ∃ c : ConditionSimulation,
        FS.lookup fs' (simFilePath root x.1) = some (Entry.file (.simPkl c))) ∧
      (∀ q : Path, FS.lookup fs' q = FS.lookup fs q ∨
        ∃ x ∈ items, q = simDirPath root x.1 ∨ q = simFilePath root x.1) := by
  intro items
  induction items with
  | nil =>
    intro s l fs hsp hok hdir hfresh hnd
    refine ⟨fs, ?_, by simp, by simp, fun q => Or.inl rfl⟩
    rw [List.map_nil, List.append_nil, ← hsp]
    rfl
  | cons x rest ih =>
    intro s l fs hsp hok hdir hfresh hnd
    obtain ⟨i, p⟩ := x
    obtain ⟨m, hm⟩ := hok _ (List.mem_cons_self _ _)
    have hbs := build_simulation_ok cls p root i kwargs fs m hm
      (hfresh _ (List.mem_cons_self _ _)) hdir
    have hndrest : (rest.map (fun x => fmtNat x.1)).Nodup :=
      (List.nodup_cons.mp hnd).2
    have hheadnotin : fmtNat i ∉ rest.map (fun x => fmtNat x.1) :=
      (List.nodup_cons.mp hnd).1
    -- the filesystem after the head iteration
    set fs2 : FS := (simFilePath root i, Entry.file (.simPkl ⟨m, kwargs, false⟩)) ::
      (simDirPath root i, Entry.dir) :: fs with hfs2
    have hsimsne : root ++ ["simulations"] ≠ [] := by simp
    have hdir2 : FS.isdir fs2 (root ++ ["simulations"]) = true := by
      rw [hfs2]
      refine FS.isdir_of_lookup_dir ?_
      rw [FS.lookup_cons, if_neg ?hda, FS.lookup_cons, if_neg ?hdb]
      case hda => intro hc; simp [simFilePath, simDirPath] at hc
      case hdb => intro hc; simp [simDirPath] at hc
      exact FS.lookup_dir_of_isdir hsimsne hdir
    have hfresh2 : ∀ x ∈ rest, ∀ q : Path,
        FS.lookup fs2 (simDirPath root x.1 ++ q) = none := by
      intro x hx q
      rw [hfs2, FS.lookup_cons, if_neg ?hfa, FS.lookup_cons, if_neg ?hfb]
      case hfa =>
        intro hc
        obtain ⟨hij, -⟩ := simDirPath_append_eq_file hc.symm
        refine hheadnotin ?_
        rw [← hij]
        exact List.mem_map_of_mem (fun y => fmtNat y.1) hx
      case hfb =>
        intro hc
        obtain ⟨hij, -⟩ := simDirPath_append_eq_dir hc.symm
        refine hheadnotin ?_
        rw [← hij]
        exact List.mem_map_of_mem (fun y => fmtNat y.1) hx
      exact hfresh x (List.mem_cons_of_mem _ hx) q
    obtain ⟨fs', hA, hB, hC, hD⟩ := ih
      { s with simulation_paths := some (l ++ [(i, simDirPath root i)]) }
      (l ++ [(i, simDirPath root i)]) fs2 rfl
      (fun x hx => hok x (List.mem_cons_of_mem _ hx)) hdir2 hfresh2 hndrest
    refine ⟨fs', ?_, ?_, ?_, ?_⟩
    · show Sweep.buildLoop cls kwargs root ((i, p) :: rest) s fs = _
      unfold Sweep.buildLoop
      dsimp only
      rw [hsp]
      dsimp only [Option.getD]
      rw [hbs]
      dsimp only
      rw [hA]
      simp [List.append_assoc]
    · intro x hx
      rcases List.mem_cons.mp hx with hx1 | hx2
      · subst hx1
        rcases hD (simDirPath root i) with hcase | ⟨y, hy, hcase⟩
        · rw [hcase, hfs2, FS.lookup_cons,
            if_neg (Ne.symm (simDirPath_ne_simFilePath root i i)),
            FS.lookup_cons, if_pos rfl]
        · rcases hcase with hdd | hdf
          · have hij : i = y.1 := simDirPath_inj hdd
            refine absurd ?_ hheadnotin
            rw [hij]
            exact List.mem_map_of_mem (fun y => fmtNat y.1) hy
          · exact absurd hdf (simDirPath_ne_simFilePath root i y.1)
      · exact hB x hx2
    · intro x hx
      rcases List.mem_cons.mp hx with hx1 | hx2
      · subst hx1
        rcases hD (simFilePath root i) with hcase | ⟨y, hy, hcase⟩
        · refine ⟨⟨m, kwargs, false⟩, ?_⟩
          rw [hcase, hfs2, FS.lookup_cons, if_pos rfl]
        · rcases hcase with hfd | hff
          · exact absurd hfd.symm (simDirPath_ne_simFilePath root y.1 i)
          · obtain ⟨hij, -⟩ := simDirPath_append_eq_file hff
            refine absurd ?_ hheadnotin
            rw [hij]
            exact List.mem_map_of_mem (fun y => fmtNat y.1) hy
      · exact hC x hx2
    · intro q
      rcases hD q with hcase | ⟨y, hy, hcase⟩
      · by_cases hq1 : q = simDirPath root i
        · exact Or.inr ⟨(i, p), List.mem_cons_self _ _, Or.inl hq1⟩
        by_cases hq2 : q = simFilePath root i
        · exact Or.inr ⟨(i, p), List.mem_cons_self _ _, Or.inr hq2⟩
        refine Or.inl ?_
        rw [hcase, hfs2, FS.lookup_cons, if_neg (fun hc => hq2 hc.symm),
          FS.lookup_cons, if_neg (fun hc => hq1 hc.symm)]
      · exact Or.inr ⟨y, List.mem_cons_of_mem _ hy, hcase⟩

/-- The per-sample loop when the model build fails at the sample following
`done`: the exception propagates at once; the failing sample's path is
recorded (the assignment precedes the call) but its directory is not
created, and no later iteration runs. -/
theorem buildLoop_err (cls : SweepClass) (kwargs : Kwargs) (root : Path) (e : PyErr) :
    ∀ (done : List (ℕ × List ℝ)) (k : ℕ) (pk : List ℝ) (rest : List (ℕ × List ℝ))
      (s : Sweep) (l : List (ℕ × Path)) (fs : FS),
    s.simulation_paths = some l →
    (∀ x ∈ done, ∃ m, cls.build_model x.2 = .ok m) →
    cls.build_model pk = .error e →
    FS.isdir fs (root ++ ["simulations"]) = true →
    (∀ x ∈ done, ∀ q : Path, FS.lookup fs (simDirPath root x.1 ++ q) = none) →
    (done.map (fun x => fmtNat x.1)).Nodup →
    ∃ fs' : FS,
      Sweep.buildLoop cls kwargs root (done ++ (k, pk) :: rest) s fs =
        ({ s with
            simulation_paths :=
              some (l ++
                (done ++ [(k, pk)]).map (fun x => (x.1, simDirPath root x.1))) },
         fs', .error e) ∧
      (∀ q : Path, FS.lookup fs' q = FS.lookup fs q ∨
        ∃ x ∈ done, q = simDirPath root x.1 ∨ q = simFilePath root x.1) := by
  intro done
  induction done with
  | nil =>
    intro k pk rest s l fs hsp hok herr hdir hfresh hnd
    refine ⟨fs, ?_, fun q => Or.inl rfl⟩
    show Sweep.buildLoop cls kwargs root ((k, pk) :: rest) s fs = _
    unfold Sweep.buildLoop
    dsimp only
    rw [hsp]
    dsimp only [Option.getD]
    rw [build_simulation_err cls pk (simDirPath root k) kwargs fs e herr]
    rfl
  | cons x done ih =>
    intro k pk rest s l fs hsp hok herr hdir hfresh hnd
    obtain ⟨i, p⟩ := x
    obtain ⟨m, hm⟩ := hok _ (List.mem_cons_self _ _)
    have hbs := build_simulation_ok cls p root i kwargs fs m hm
      (hfresh _ (List.mem_cons_self _ _)) hdir
    have hndrest : (done.map (fun x => fmtNat x.1)).Nodup :=
      (List.nodup_cons.mp hnd).2
    have hheadnotin : fmtNat i ∉ done.map (fun x => fmtNat x.1) :=
      (List.nodup_cons.mp hnd).1
    set fs2 : FS := (simFilePath root i, Entry.file (.simPkl ⟨m, kwargs, false⟩)) ::
      (simDirPath root i, Entry.dir) :: fs with hfs2
    have hsimsne : root ++ ["simulations"] ≠ [] := by simp
    have hdir2 : FS.isdir fs2 (root ++ ["simulations"]) = true := by
      rw [hfs2]
      refine FS.isdir_of_lookup_dir ?_
      rw [FS.lookup_cons, if_neg ?hda, FS.lookup_cons, if_neg ?hdb]
      case hda => intro hc; simp [simFilePath, simDirPath] at hc
      case hdb => intro hc; simp [simDirPath] at hc
      exact FS.lookup_dir_of_isdir hsimsne hdir
    have hfresh2 : ∀ x ∈ done, ∀ q : Path,
        FS.lookup fs2 (simDirPath root x.1 ++ q) = none := by
      intro x hx q
      rw [hfs2, FS.lookup_cons, if_neg ?hfa, FS.lookup_cons, if_neg ?hfb]
      case hfa =>
        intro hc
        obtain ⟨hij, -⟩ := simDirPath_append_eq_file hc.symm
        refine hheadnotin ?_
        rw [← hij]
        exact List.mem_map_of_mem (fun y => fmtNat y.1) hx
      case hfb =>
        intro hc
        obtain ⟨hij, -⟩ := simDirPath_append_eq_dir hc.symm
        refine hheadnotin ?_
        rw [← hij]
        exact List.mem_map_of_mem (fun y => fmtNat y.1) hx
      exact hfresh x (List.mem_cons_of_mem _ hx) q
    obtain ⟨fs', hA, hD⟩ := ih k pk rest
      { s with simulation_paths := some (l ++ [(i, simDirPath root i)]) }
      (l ++ [(i, simDirPath root i)]) fs2 rfl
      (fun x hx => hok x (List.mem_cons_of_mem _ hx)) herr hdir2 hfresh2 hndrest
    refine ⟨fs', ?_, ?_⟩
    · show Sweep.buildLoop cls kwargs root ((i, p) :: (done ++ (k, pk) :: rest)) s fs = _
      unfold Sweep.buildLoop
      dsimp only
      rw [hsp]
      dsimp only [Option.getD]
      rw [hbs]
      dsimp only
      rw [hA]
      simp [List.append_assoc]
    · intro q
      rcases hD q with hcase | ⟨y, hy, hcase⟩
      · by_cases hq1 : q = simDirPath root i
        · exact Or.inr ⟨(i, p), List.mem_cons_self _ _, Or.inl hq1⟩
        by_cases hq2 : q = simFilePath root i
        · exact Or.inr ⟨(i, p), List.mem_cons_self _ _, Or.inr hq2⟩
        refine Or.inl ?_
        rw [hcase, hfs2, FS.lookup_cons, if_neg (fun hc => hq2 hc.symm),
          FS.lookup_cons, if_neg (fun hc => hq1 hc.symm)]
      · exact Or.inr ⟨y, List.mem_cons_of_mem _ hy, hcase⟩

/-! ### `Sweep.build`: the master description of a run -/

theorem snd_mem_of_mem_enum {α : Type} {l : List α} {x : ℕ × α}
    (h : x ∈ l.enum) : x.2 ∈ l := by
  have h2 := List.mem_map_of_mem Prod.snd h
  rwa [show l.enum = l.enumFrom 0 from rfl, List.enumFrom_map_snd] at h2

theorem fst_lt_of_mem_enum {α : Type} {l : List α} {x : ℕ × α}
    (h : x ∈ l.enum) : x.1 < l.length := by
  have h2 := List.mem_map_of_mem Prod.fst h
  rw [show l.enum = l.enumFrom 0 from rfl, List.enumFrom_map_fst,
    ← List.range_eq_range'] at h2
  exact List.mem_range.mp h2

theorem exists_mem_enum_fst {α : Type} {l : List α} {i : ℕ} (h : i < l.length) :
    ∃ x ∈ l.enum, x.1 = i := by
  have h2 : i ∈ l.enum.map Prod.fst := by
    rw [show l.enum = l.enumFrom 0 from rfl, List.enumFrom_map_fst,
      ← List.range_eq_range']
    exact List.mem_range.mpr h
  obtain ⟨x, hx, hxi⟩ := List.mem_map.mp h2
  exact ⟨x, hx, hxi⟩

theorem enum_fmt_nodup {α : Type} (l : List α) :
    (l.enum.map (fun x => fmtNat x.1)).Nodup := by
  have h1 : l.enum.map (fun x => fmtNat x.1) = (l.enum.map Prod.fst).map fmtNat := by
    rw [List.map_map]
    rfl
  rw [h1, show l.enum = l.enumFrom 0 from rfl, List.enumFrom_map_fst,
    ← List.range_eq_range']
  exact (List.nodup_range _).map fmtNat_inj

theorem enum_map_fst_fun {α β : Type} (l : List α) (g : ℕ → β) :
    l.enum.map (fun x => (x.1, g x.1)) =
      (List.range l.length).map (fun i => (i, g i)) := by
  have h1 : l.enum.map (fun x => (x.1, g x.1)) =
      (l.enum.map Prod.fst).map (fun i => (i, g i)) := by
    rw [List.map_map]
    rfl
  rw [h1, show l.enum = l.enumFrom 0 from rfl, List.enumFrom_map_fst,
    ← List.range_eq_range']

/-- Master description of a `Sweep.build` run in which every per-sample
model build succeeds, on a filesystem where `dirpath` exists and nothing yet
lies under the sweep root: the per-sample loop and the serialization
succeed, after which the run raises `NameError` on the unbound module-level
name `sweep` inside `write_paths_file` — leaving the manifest just created
but empty, the state file written and loadable, exactly the `N` per-sample
directories `0..N-1` populated, and the submission script unwritten. -/
theorem build_ok_master (s : Sweep) (dirpath : Path) (ts : String) (fs : FS)
    (N : ℕ) (kwargs : Kwargs)
    (hdir : FS.isdir fs dirpath = true)
    (hfresh : ∀ q : Path, FS.lookup fs (sweepRoot s dirpath ts ++ q) = none)
    (hok : ∀ p ∈ LogSampler.sample s.sampler N, ∃ m, s.cls.build_model p = .ok m) :
    ∃ fsf : FS,
      Sweep.build s dirpath N kwargs ts fs =
        (finalSweep s dirpath ts N kwargs, fsf, .error (.nameError "sweep")) ∧
      FS.lookup fsf (sweepRoot s dirpath ts ++ ["scripts", "paths.txt"]) =
        some (Entry.file (.text "")) ∧
      FS.lookup fsf (sweepRoot s dirpath ts ++ ["sweep.pkl"]) =
        some (Entry.file (.sweepPkl (finalSweep s dirpath ts N kwargs))) ∧
      Sweep.load (sweepRoot s dirpath ts) fsf =
        .ok (finalSweep s dirpath ts N kwargs) ∧
      (∀ i, i < N →
        FS.lookup fsf (simDirPath (sweepRoot s dirpath ts) i) = some Entry.dir) ∧
      (∀ i, i < N → ∃ c : ConditionSimulation,
        FS.lookup fsf (simFilePath (sweepRoot s dirpath ts) i) =
          some (Entry.file (.simPkl c))) ∧
      (∀ name : String,
        FS.lookup fsf (sweepRoot s dirpath ts ++ ["simulations", name]) =
          some Entry.dir → ∃ i, i < N ∧ name = fmtNat i) ∧
      FS.lookup fsf (sweepRoot s dirpath ts ++ ["scripts", "job_submission.sh"]) =
        none := by
  have hmds := makeSweepDir_fresh s dirpath ts fs hdir hfresh
  set R := sweepRoot s dirpath ts with hR
  set params := LogSampler.sample s.sampler N with hparams
  set fs1 : FS := (R ++ ["simulations"], Entry.dir) ::
    (R ++ ["scripts"], Entry.dir) :: (R, Entry.dir) :: fs with hfs1
  set s2 : Sweep :=
    { s with
        path := some R,
        scripts_path := some (R ++ ["scripts"]),
        simulations_path := some (R ++ ["simulations"]),
        parameters := some params,
        simulation_kwargs := some kwargs,
        simulation_paths := some [] } with hs2
  have hokitems : ∀ x ∈ params.enum, ∃ m, s.cls.build_model x.2 = .ok m :=
    fun x hx => hok x.2 (snd_mem_of_mem_enum hx)
  have hdir1 : FS.isdir fs1 (R ++ ["simulations"]) = true := by
    rw [hfs1]
    exact FS.isdir_of_lookup_dir (by rw [FS.lookup_cons, if_pos rfl])
  have hfresh1 : ∀ x ∈ params.enum, ∀ q : Path,
      FS.lookup fs1 (simDirPath R x.1 ++ q) = none := by
    intro x hx q
    rw [show simDirPath R x.1 ++ q = R ++ ("simulations" :: fmtNat x.1 :: q) by
      simp [simDirPath]]
    rw [hfs1, FS.lookup_cons, if_neg (path_ne_of_ext_ne R (by simp)),
      FS.lookup_cons, if_neg (path_ne_of_ext_ne R (by simp)),
      FS.lookup_cons, if_neg (path_ne_append_cons R _ _)]
    exact hfresh _
  obtain ⟨fsl, hA, hB, hC, hD⟩ := buildLoop_ok s.cls kwargs R params.enum s2 [] fs1
    rfl hokitems hdir1 hfresh1 (enum_fmt_nodup params)
  have hs3 : ({ s2 with
      simulation_paths :=
        some ([] ++ params.enum.map (fun x => (x.1, simDirPath R x.1))) } : Sweep) =
      finalSweep s dirpath ts N kwargs := by
    rw [hs2, hR, hparams]
    simp [finalSweep]
  rw [hs3] at hA
  set sF := finalSweep s dirpath ts N kwargs with hsF
  have hlookup_fs1_R : FS.lookup fs1 R = some Entry.dir := by
    rw [hfs1, FS.lookup_cons, if_neg (path_ne_append_cons R _ _).symm,
      FS.lookup_cons, if_neg (path_ne_append_cons R _ _).symm,
      FS.lookup_cons, if_pos rfl]
  have hnotunder : ∀ (y : ℕ × List ℝ) (a : List String),
      (∀ (j : ℕ) (q : Path), a ≠ ["simulations", fmtNat j] ++ q) →
      R ++ a ≠ simDirPath R y.1 ∧ R ++ a ≠ simFilePath R y.1 := by
    intro y a hshape
    constructor
    · intro hc
      rw [show simDirPath R y.1 = R ++ (["simulations", fmtNat y.1] ++ []) by
        simp [simDirPath]] at hc
      exact hshape y.1 [] (List.append_cancel_left hc)
    · intro hc
      rw [show simFilePath R y.1 =
          R ++ (["simulations", fmtNat y.1] ++ ["simulation.pkl"]) by
        simp [simFilePath, simDirPath]] at hc
      exact hshape y.1 ["simulation.pkl"] (List.append_cancel_left hc)
  have hlookup_fsl_other : ∀ a : List String,
      (∀ (j : ℕ) (q : Path), a ≠ ["simulations", fmtNat j] ++ q) →
      FS.lookup fsl (R ++ a) = FS.lookup fs1 (R ++ a) := by
    intro a hshape
    rcases hD (R ++ a) with hcase | ⟨y, -, hcase⟩
    · exact hcase
    · rcases hcase with hc | hc
      · exact absurd hc (hnotunder y a hshape).1
      · exact absurd hc (hnotunder y a hshape).2
  have hlookup_fsl_R : FS.lookup fsl R = some Entry.dir := by
    have h1 := hlookup_fsl_other [] (by intro j q hc; simp at hc)
    rw [List.append_nil] at h1
    rw [h1, hlookup_fs1_R]
  have hlook_pkl : FS.lookup fsl (R ++ ["sweep.pkl"]) = none := by
    rw [hlookup_fsl_other ["sweep.pkl"] (by intro j q hc; simp at hc)]
    rw [hfs1, FS.lookup_cons, if_neg (path_ne_of_ext_ne R (by decide)),
      FS.lookup_cons, if_neg (path_ne_of_ext_ne R (by decide)),
      FS.lookup_cons, if_neg (path_ne_append_cons R _ _)]
    exact hfresh ["sweep.pkl"]
  have hwpkl : FS.writeFile fsl (R ++ ["sweep.pkl"]) (.sweepPkl sF) =
      .ok ((R ++ ["sweep.pkl"], Entry.file (.sweepPkl sF)) :: fsl) :=
    FS.writeFile_of (by rw [hlook_pkl]; simp)
      (by rw [List.dropLast_concat]; exact FS.isdir_of_lookup_dir hlookup_fsl_R)
  set fs3 : FS := (R ++ ["sweep.pkl"], Entry.file (.sweepPkl sF)) :: fsl with hfs3
  have hshape_scripts : ∀ b : String, ∀ (j : ℕ) (q : Path),
      (["scripts", b] : List String) ≠ ["simulations", fmtNat j] ++ q := by
    intro b j q hc
    simp only [List.cons_append, List.cons.injEq] at hc
    exact absurd hc.1 (by decide)
  have hlook3_ptxt : FS.lookup fs3 (R ++ ["scripts", "paths.txt"]) = none := by
    rw [hfs3, FS.lookup_cons, if_neg (path_ne_of_ext_ne R (by decide))]
    rw [hlookup_fsl_other ["scripts", "paths.txt"] (hshape_scripts "paths.txt")]
    rw [hfs1, FS.lookup_cons, if_neg (path_ne_of_ext_ne R (by simp)),
      FS.lookup_cons, if_neg (path_ne_of_ext_ne R (by simp)),
      FS.lookup_cons, if_neg (path_ne_append_cons R _ _)]
    exact hfresh ["scripts", "paths.txt"]
  have hisdir3_scripts : FS.isdir fs3 (R ++ ["scripts"]) = true := by
    refine FS.isdir_of_lookup_dir ?_
    rw [hfs3, FS.lookup_cons, if_neg (path_ne_of_ext_ne R (by decide))]
    rw [hlookup_fsl_other ["scripts"] (by intro j q hc; simp at hc)]
    rw [hfs1, FS.lookup_cons, if_neg (path_ne_of_ext_ne R (by decide)),
      FS.lookup_cons, if_pos rfl]
  have hwptxt : FS.writeFile fs3 (R ++ ["scripts", "paths.txt"]) (.text "") =
      .ok ((R ++ ["scripts", "paths.txt"], Entry.file (.text "")) :: fs3) :=
    FS.writeFile_of (by rw [hlook3_ptxt]; simp)
      (by rw [show R ++ ["scripts", "paths.txt"] =
            (R ++ ["scripts"]) ++ ["paths.txt"] by simp, List.dropLast_concat]
          exact hisdir3_scripts)
  have hwpf : Sweep.write_paths_file sF fs3 =
      ((R ++ ["scripts", "paths.txt"], Entry.file (.text "")) :: fs3,
        .error (.nameError "sweep")) := by
    unfold Sweep.write_paths_file
    rw [show sF.scripts_path = some (R ++ ["scripts"]) from rfl]
    dsimp only
    rw [show (R ++ ["scripts"]) ++ ["paths.txt"] = R ++ ["scripts", "paths.txt"] by
      simp]
    rw [hwptxt]
    dsimp only
    rw [if_neg (by decide)]
  set fs4 : FS := (R ++ ["scripts", "paths.txt"], Entry.file (.text "")) :: fs3
    with hfs4
  have hbuild : Sweep.build s dirpath N kwargs ts fs =
      (sF, fs4, .error (.nameError "sweep")) := by
    unfold Sweep.build
    rw [hmds]
    dsimp only
    rw [← hparams, ← hs2]
    rw [hA]
    dsimp only
    rw [hwpkl]
    dsimp only
    rw [hwpf]
  refine ⟨fs4, hbuild, ?_, ?_, ?_, ?_, ?_, ?_, ?_⟩
  · rw [hfs4, FS.lookup_cons, if_pos rfl]
  · rw [hfs4, FS.lookup_cons, if_neg (path_ne_of_ext_ne R (by decide)),
      hfs3, FS.lookup_cons, if_pos rfl]
  · unfold Sweep.load
    rw [hfs4, FS.lookup_cons, if_neg (path_ne_of_ext_ne R (by decide)),
      hfs3, FS.lookup_cons, if_pos rfl]
  · intro i hi
    have hlen : i < params.length := by
      rw [hparams, sample_length]
      exact hi
    obtain ⟨x, hx, hxi⟩ := exists_mem_enum_fst hlen
    have hBx := hB x hx
    rw [hxi] at hBx
    rw [show simDirPath R i = R ++ ["simulations", fmtNat i] from rfl] at hBx ⊢
    rw [hfs4, FS.lookup_cons, if_neg (path_ne_of_ext_ne R (by
        intro h
        simp only [List.cons.injEq] at h
        exact absurd h.1 (by decide))),
      hfs3, FS.lookup_cons, if_neg (path_ne_of_ext_ne R (by simp))]
    exact hBx
  · intro i hi
    have hlen : i < params.length := by
      rw [hparams, sample_length]
      exact hi
    obtain ⟨x, hx, hxi⟩ := exists_mem_enum_fst hlen
    obtain ⟨c, hCx⟩ := hC x hx
    rw [hxi] at hCx
    refine ⟨c, ?_⟩
    rw [show simFilePath R i = R ++ ["simulations", fmtNat i, "simulation.pkl"] by
      simp [simFilePath, simDirPath]] at hCx ⊢
    rw [hfs4, FS.lookup_cons, if_neg (path_ne_of_ext_ne R (by
        intro h
        simp only [List.cons.injEq] at h
        exact absurd h.1 (by decide))),
      hfs3, FS.lookup_cons, if_neg (path_ne_of_ext_ne R (by simp))]
    exact hCx
  · intro name hname
    rw [hfs4, FS.lookup_cons, if_neg (path_ne_of_ext_ne R (by
        intro h
        simp only [List.cons.injEq] at h
        exact absurd h.1 (by decide))),
      hfs3, FS.lookup_cons, if_neg (path_ne_of_ext_ne R (by simp))] at hname
    rcases hD (R ++ ["simulations", name]) with hcase | ⟨y, hy, hcase⟩
    · rw [hcase] at hname
      rw [hfs1, FS.lookup_cons, if_neg (path_ne_of_ext_ne R (by simp)),
        FS.lookup_cons, if_neg (path_ne_of_ext_ne R (by simp)),
        FS.lookup_cons, if_neg (path_ne_append_cons R _ _)] at hname
      rw [hfresh ["simulations", name]] at hname
      simp at hname
    · rcases hcase with hc | hc
      · rw [show simDirPath R y.1 = R ++ ["simulations", fmtNat y.1] from rfl] at hc
        have h2 := List.append_cancel_left hc
        simp only [List.cons.injEq, and_true, true_and] at h2
        refine ⟨y.1, ?_, h2⟩
        have h3 := fst_lt_of_mem_enum hy
        rw [hparams, sample_length] at h3
        exact h3
      · rw [show simFilePath R y.1 =
            R ++ ["simulations", fmtNat y.1, "simulation.pkl"] by
          simp [simFilePath, simDirPath]] at hc
        have h2 := List.append_cancel_left hc
        simp at h2
  · rw [hfs4, FS.lookup_cons, if_neg (path_ne_of_ext_ne R (by decide)),
      hfs3, FS.lookup_cons, if_neg (path_ne_of_ext_ne R (by decide))]
    rw [hlookup_fsl_other ["scripts", "job_submission.sh"]
      (hshape_scripts "job_submission.sh")]
    rw [hfs1, FS.lookup_cons, if_neg (path_ne_of_ext_ne R (by simp)),
      FS.lookup_cons, if_neg (path_ne_of_ext_ne R (by simp)),
      FS.lookup_cons, if_neg (path_ne_append_cons R _ _)]
    exact hfresh ["scripts", "job_submission.sh"]


/-! ### Claims C1, C2, C4: what `build` actually does -/

/-- Claim C1 (code bug): after a build in which every per-sample model build
succeeds, `build` raises `NameError` on the name `sweep` inside
`write_paths_file` (source line 175 iterates `sweep.simulation_paths`, but
the module scope binds no `sweep`; `self` was evidently intended), and the
manifest `paths.txt` — just created by `open(..., 'w')` — is left empty
rather than holding the `N` simulation paths. -/
theorem write_paths_file_name_error (s : Sweep) (dirpath : Path) (ts : String)
    (fs : FS) (N : ℕ) (kwargs : Kwargs)
    (hdir : FS.isdir fs dirpath = true)
    (hfresh : ∀ q : Path, FS.lookup fs (sweepRoot s dirpath ts ++ q) = none)
    (hok : ∀ p ∈ LogSampler.sample s.sampler N, ∃ m, s.cls.build_model p = .ok m) :
    (Sweep.build s dirpath N kwargs ts fs).2.2 = .error (.nameError "sweep") ∧
    FS.lookup (Sweep.build s dirpath N kwargs ts fs).2.1
      (sweepRoot s dirpath ts ++ ["scripts", "paths.txt"]) =
      some (Entry.file (.text "")) ∧
    sweepModuleScope.contains "sweep" = false := by
  obtain ⟨fsf, hb, hptxt, -⟩ :=
    build_ok_master s dirpath ts fs N kwargs hdir hfresh hok
  rw [hb]
  exact ⟨rfl, hptxt, by decide⟩

/-- Claim C2 (code bug): no `Sweep` ever completes `build` — the call always
raises `NameError` on the unbound name `sweep` in `write_paths_file` — so
the claim's premise ("has completed build") is unsatisfiable.  The state
file written just before the failure does round-trip: `load` on the sweep
root returns a sweep whose `base`, `delta`, `parameters`,
`simulation_kwargs` and `simulation_paths` are exactly those of the sweep
object at serialization time. -/
theorem sweep_pickle_roundtrip_despite_name_error (s : Sweep) (dirpath : Path)
    (ts : String) (fs : FS) (N : ℕ) (kwargs : Kwargs)
    (hdir : FS.isdir fs dirpath = true)
    (hfresh : ∀ q : Path, FS.lookup fs (sweepRoot s dirpath ts ++ q) = none)
    (hok : ∀ p ∈ LogSampler.sample s.sampler N, ∃ m, s.cls.build_model p = .ok m) :
    (Sweep.build s dirpath N kwargs ts fs).2.2 = .error (.nameError "sweep") ∧
    ∃ s2 : Sweep,
      Sweep.load (sweepRoot s dirpath ts) (Sweep.build s dirpath N kwargs ts fs).2.1 =
        .ok s2 ∧
      s2.base = (Sweep.build s dirpath N kwargs ts fs).1.base ∧
      s2.delta = (Sweep.build s dirpath N kwargs ts fs).1.delta ∧
      s2.parameters = (Sweep.build s dirpath N kwargs ts fs).1.parameters ∧
      s2.simulation_kwargs =
        (Sweep.build s dirpath N kwargs ts fs).1.simulation_kwargs ∧
      s2.simulation_paths =
        (Sweep.build s dirpath N kwargs ts fs).1.simulation_paths := by
  obtain ⟨fsf, hb, -, -, hload, -⟩ :=
    build_ok_master s dirpath ts fs N kwargs hdir hfresh hok
  rw [hb]
  exact ⟨rfl, finalSweep s dirpath ts N kwargs, hload, rfl, rfl, rfl, rfl, rfl⟩

/-- Claim C4 (code bug): the per-sample loop of `build` creates exactly the
`N` subdirectories named `0..N-1` (decimal) under `simulations/`, each
holding a persisted simulation case, and records
`simulation_paths[i] = <sweep root>/simulations/<i>` in sample order — but
no build is ever "successful": the call then raises `NameError` inside
`write_paths_file` before finishing. -/
theorem build_simulation_directories (s : Sweep) (dirpath : Path) (ts : String)
    (fs : FS) (N : ℕ) (kwargs : Kwargs)
    (hdir : FS.isdir fs dirpath = true)
    (hfresh : ∀ q : Path, FS.lookup fs (sweepRoot s dirpath ts ++ q) = none)
    (hok : ∀ p ∈ LogSampler.sample s.sampler N, ∃ m, s.cls.build_model p = .ok m) :
    (Sweep.build s dirpath N kwargs ts fs).2.2 = .error (.nameError "sweep") ∧
    (Sweep.build s dirpath N kwargs ts fs).1.simulation_paths =
      some ((List.range N).map
        (fun i => (i, simDirPath (sweepRoot s dirpath ts) i))) ∧
    (∀ i, i < N →
      FS.lookup (Sweep.build s dirpath N kwargs ts fs).2.1
        (simDirPath (sweepRoot s dirpath ts) i) = some Entry.dir) ∧
    (∀ i, i < N → ∃ c : ConditionSimulation,
      FS.lookup (Sweep.build s dirpath N kwargs ts fs).2.1
        (simFilePath (sweepRoot s dirpath ts) i) =
        some (Entry.file (.simPkl c))) ∧
    (∀ name : String,
      FS.lookup (Sweep.build s dirpath N kwargs ts fs).2.1
        (sweepRoot s dirpath ts ++ ["simulations", name]) = some Entry.dir →
      ∃ i, i < N ∧ name = fmtNat i) := by
  obtain ⟨fsf, hb, -, -, -, hdirs, hfiles, hexact, -⟩ :=
    build_ok_master s dirpath ts fs N kwargs hdir hfresh hok
  rw [hb]
  refine ⟨rfl, ?_, hdirs, hfiles, hexact⟩
  show (finalSweep s dirpath ts N kwargs).simulation_paths = _
  rw [show (finalSweep s dirpath ts N kwargs).simulation_paths =
    some ((LogSampler.sample s.sampler N).enum.map
      (fun x => (x.1, simDirPath (sweepRoot s dirpath ts) x.1))) from rfl]
  rw [enum_map_fst_fun, sample_length]

/-- The embedded `LinearSweep.build_model` succeeds on every 9-component vector. -/
theorem LinearSweep.build_model_ok_of_len {p : List ℝ} (h : p.length = 9) :
    ∃ m : Model, LinearSweep.build_model p = .ok m := by
  rcases p with _|⟨a1,_|⟨a2,_|⟨a3,_|⟨a4,_|⟨a5,_|⟨a6,_|⟨a7,_|⟨a8,_|⟨a9,_|⟨a10,t⟩⟩⟩⟩⟩⟩⟩⟩⟩⟩ <;>
    simp only [List.length_cons, List.length_nil] at h <;> try omega
  exact ⟨_, rfl⟩

theorem demoSweep9_build_models_ok :
    ∀ p ∈ LogSampler.sample demoSweep9.sampler 2,
      ∃ m, demoSweep9.cls.build_model p = .ok m := by
  intro p hp
  have hlen : p.length = 9 := mem_sample_length rfl hp
  exact LinearSweep.build_model_ok_of_len hlen

/-- Witness for claim C1 at a concrete sweep, destination and `N = 2`. -/
theorem write_paths_file_name_error_witness :
    (FS.isdir [(["tmp"], Entry.dir)] ["tmp"] = true) ∧
    (∀ q : Path, FS.lookup [(["tmp"], Entry.dir)]
      (sweepRoot demoSweep9 ["tmp"] "250101_120000" ++ q) = none) ∧
    ((Sweep.build demoSweep9 ["tmp"] 2 [] "250101_120000"
        [(["tmp"], Entry.dir)]).2.2 = .error (.nameError "sweep") ∧
     FS.lookup (Sweep.build demoSweep9 ["tmp"] 2 [] "250101_120000"
        [(["tmp"], Entry.dir)]).2.1
       (sweepRoot demoSweep9 ["tmp"] "250101_120000" ++ ["scripts", "paths.txt"]) =
       some (Entry.file (.text "")) ∧
     sweepModuleScope.contains "sweep" = false) :=
  ⟨rfl, fun _ => rfl,
   write_paths_file_name_error demoSweep9 ["tmp"] "250101_120000"
     [(["tmp"], Entry.dir)] 2 [] rfl (fun _ => rfl) demoSweep9_build_models_ok⟩

/-- Witness for claim C2 at a concrete sweep, destination and `N = 2`. -/
theorem sweep_pickle_roundtrip_despite_name_error_witness :
    (FS.isdir [(["tmp"], Entry.dir)] ["tmp"] = true) ∧
    (∀ q : Path, FS.lookup [(["tmp"], Entry.dir)]
      (sweepRoot demoSweep9 ["tmp"] "250101_120000" ++ q) = none) ∧
    ((Sweep.build demoSweep9 ["tmp"] 2 [] "250101_120000"
        [(["tmp"], Entry.dir)]).2.2 = .error (.nameError "sweep") ∧
     ∃ s2 : Sweep,
       Sweep.load (sweepRoot demoSweep9 ["tmp"] "250101_120000")
         (Sweep.build demoSweep9 ["tmp"] 2 [] "250101_120000"
           [(["tmp"], Entry.dir)]).2.1 = .ok s2 ∧
       s2.base = (Sweep.build demoSweep9 ["tmp"] 2 [] "250101_120000"
         [(["tmp"], Entry.dir)]).1.base ∧
       s2.delta = (Sweep.build demoSweep9 ["tmp"] 2 [] "250101_120000"
         [(["tmp"], Entry.dir)]).1.delta ∧
       s2.parameters = (Sweep.build demoSweep9 ["tmp"] 2 [] "250101_120000"
         [(["tmp"], Entry.dir)]).1.parameters ∧
       s2.simulation_kwargs = (Sweep.build demoSweep9 ["tmp"] 2 [] "250101_120000"
         [(["tmp"], Entry.dir)]).1.simulation_kwargs ∧
       s2.simulation_paths = (Sweep.build demoSweep9 ["tmp"] 2 [] "250101_120000"
         [(["tmp"], Entry.dir)]).1.simulation_paths) :=
  ⟨rfl, fun _ => rfl,
   sweep_pickle_roundtrip_despite_name_error demoSweep9 ["tmp"] "250101_120000"
     [(["tmp"], Entry.dir)] 2 [] rfl (fun _ => rfl) demoSweep9_build_models_ok⟩

/-- Witness for claim C4 at a concrete sweep, destination and `N = 2`. -/
theorem build_simulation_directories_witness :
    (FS.isdir [(["tmp"], Entry.dir)] ["tmp"] = true) ∧
    (∀ q : Path, FS.lookup [(["tmp"], Entry.dir)]
      (sweepRoot demoSweep9 ["tmp"] "250101_120000" ++ q) = none) ∧
    ((Sweep.build demoSweep9 ["tmp"] 2 [] "250101_120000"
        [(["tmp"], Entry.dir)]).2.2 = .error (.nameError "sweep") ∧
     (Sweep.build demoSweep9 ["tmp"] 2 [] "250101_120000"
        [(["tmp"], Entry.dir)]).1.simulation_paths =
       some ((List.range 2).map
         (fun i => (i, simDirPath (sweepRoot demoSweep9 ["tmp"] "250101_120000") i))) ∧
     (∀ i, i < 2 →
       FS.lookup (Sweep.build demoSweep9 ["tmp"] 2 [] "250101_120000"
          [(["tmp"], Entry.dir)]).2.1
         (simDirPath (sweepRoot demoSweep9 ["tmp"] "250101_120000") i) =
         some Entry.dir) ∧
     (∀ i, i < 2 → ∃ c : ConditionSimulation,
       FS.lookup (Sweep.build demoSweep9 ["tmp"] 2 [] "250101_120000"
          [(["tmp"], Entry.dir)]).2.1
         (simFilePath (sweepRoot demoSweep9 ["tmp"] "250101_120000") i) =
         some (Entry.file (.simPkl c))) ∧
     (∀ name : String,
       FS.lookup (Sweep.build demoSweep9 ["tmp"] 2 [] "250101_120000"
          [(["tmp"], Entry.dir)]).2.1
         (sweepRoot demoSweep9 ["tmp"] "250101_120000" ++ ["simulations", name]) =
         some Entry.dir →
       ∃ i, i < 2 ∧ name = fmtNat i)) :=
  ⟨rfl, fun _ => rfl,
   build_simulation_directories demoSweep9 ["tmp"] "250101_120000"
     [(["tmp"], Entry.dir)] 2 [] rfl (fun _ => rfl) demoSweep9_build_models_ok⟩


/-! ### Claim C3: a sample failure aborts the whole build -/

theorem enumFrom_append_self {α : Type} (l1 l2 : List α) :
    ∀ n : ℕ, (l1 ++ l2).enumFrom n = l1.enumFrom n ++ l2.enumFrom (n + l1.length) := by
  induction l1 with
  | nil => intro n; simp
  | cons a t ih =>
    intro n
    rw [List.cons_append, List.enumFrom_cons, ih (n + 1), List.enumFrom_cons]
    rw [List.length_cons]
    rw [show n + 1 + t.length = n + (t.length + 1) by omega]
    rfl

theorem enum_split {α : Type} (l1 : List α) (a : α) (l2 : List α) :
    (l1 ++ a :: l2).enum =
      l1.enum ++ (l1.length, a) :: l2.enumFrom (l1.length + 1) := by
  rw [show (l1 ++ a :: l2).enum = (l1 ++ a :: l2).enumFrom 0 from rfl]
  rw [enumFrom_append_self]
  rw [show (0 : ℕ) + l1.length = l1.length by omega]
  rfl

/-- Claim C3: if building any single sample raises during `build`, the
exception propagates immediately and aborts the remaining per-sample loop —
no directory is created for the failing sample or any later one — and
neither the manifest `paths.txt` nor the job-submission script (nor the
serialized sweep state) is written; those files appear only after all
samples succeed. -/
theorem build_aborts_on_sample_failure (s : Sweep) (dirpath : Path) (ts : String)
    (fs : FS) (N : ℕ) (kwargs : Kwargs) (P1 : List (List ℝ)) (pk : List ℝ)
    (P2 : List (List ℝ)) (e : PyErr)
    (hdir : FS.isdir fs dirpath = true)
    (hfresh : ∀ q : Path, FS.lookup fs (sweepRoot s dirpath ts ++ q) = none)
    (hsplit : LogSampler.sample s.sampler N = P1 ++ pk :: P2)
    (hok1 : ∀ p ∈ P1, ∃ m, s.cls.build_model p = .ok m)
    (herr : s.cls.build_model pk = .error e) :
    (Sweep.build s dirpath N kwargs ts fs).2.2 = .error e ∧
    FS.lookup (Sweep.build s dirpath N kwargs ts fs).2.1
      (sweepRoot s dirpath ts ++ ["scripts", "paths.txt"]) = none ∧
    FS.lookup (Sweep.build s dirpath N kwargs ts fs).2.1
      (sweepRoot s dirpath ts ++ ["scripts", "job_submission.sh"]) = none ∧
    FS.lookup (Sweep.build s dirpath N kwargs ts fs).2.1
      (sweepRoot s dirpath ts ++ ["sweep.pkl"]) = none ∧
    (Sweep.build s dirpath N kwargs ts fs).1.simulation_paths =
      some ((List.range (P1.length + 1)).map
        (fun i => (i, simDirPath (sweepRoot s dirpath ts) i))) ∧
    (∀ i, P1.length ≤ i →
      FS.lookup (Sweep.build s dirpath N kwargs ts fs).2.1
        (simDirPath (sweepRoot s dirpath ts) i) = none) := by
  have hmds := makeSweepDir_fresh s dirpath ts fs hdir hfresh
  set R := sweepRoot s dirpath ts with hR
  set params := LogSampler.sample s.sampler N with hparams
  set fs1 : FS := (R ++ ["simulations"], Entry.dir) ::
    (R ++ ["scripts"], Entry.dir) :: (R, Entry.dir) :: fs with hfs1
  set s2 : Sweep :=
    { s with
        path := some R,
        scripts_path := some (R ++ ["scripts"]),
        simulations_path := some (R ++ ["simulations"]),
        parameters := some params,
        simulation_kwargs := some kwargs,
        simulation_paths := some [] } with hs2
  have hfreshAll : ∀ (j : ℕ) (q : Path),
      FS.lookup fs1 (simDirPath R j ++ q) = none := by
    intro j q
    rw [show simDirPath R j ++ q = R ++ ("simulations" :: fmtNat j :: q) by
      simp [simDirPath]]
    rw [hfs1, FS.lookup_cons, if_neg (path_ne_of_ext_ne R (by simp)),
      FS.lookup_cons, if_neg (path_ne_of_ext_ne R (by simp)),
      FS.lookup_cons, if_neg (path_ne_append_cons R _ _)]
    exact hfresh _
  have hdir1 : FS.isdir fs1 (R ++ ["simulations"]) = true := by
    rw [hfs1]
    exact FS.isdir_of_lookup_dir (by rw [FS.lookup_cons, if_pos rfl])
  have henum : params.enum =
      P1.enum ++ (P1.length, pk) :: P2.enumFrom (P1.length + 1) := by
    rw [hsplit]
    exact enum_split P1 pk P2
  obtain ⟨fsl, hA, hD⟩ := buildLoop_err s.cls kwargs R e P1.enum P1.length pk
    (P2.enumFrom (P1.length + 1)) s2 [] fs1 rfl
    (fun x hx => hok1 x.2 (snd_mem_of_mem_enum hx)) herr hdir1
    (fun x _ q => hfreshAll x.1 q) (enum_fmt_nodup P1)
  have hbuild : Sweep.build s dirpath N kwargs ts fs =
      ({ s2 with
          simulation_paths :=
            some ([] ++ (P1.enum ++ [(P1.length, pk)]).map
              (fun x => (x.1, simDirPath R x.1))) }, fsl, .error e) := by
    unfold Sweep.build
    rw [hmds]
    dsimp only
    rw [← hparams, ← hs2, henum, hA]
  rw [hbuild]
  have hdone_created : ∀ (a : List String),
      (∀ (j : ℕ) (q : Path), R ++ a ≠ simDirPath R j ++ q) →
      FS.lookup fsl (R ++ a) = FS.lookup fs1 (R ++ a) := by
    intro a hshape
    rcases hD (R ++ a) with hcase | ⟨y, -, hcase⟩
    · exact hcase
    · rcases hcase with hc | hc
      · exact absurd hc (by
          have := hshape y.1 []
          rw [List.append_nil] at this
          exact this)
      · exact absurd hc (by
          have := hshape y.1 ["simulation.pkl"]
          rw [show simDirPath R y.1 ++ ["simulation.pkl"] = simFilePath R y.1
            from rfl] at this
          exact this)
  have hunder_ne : ∀ (b : String) (bs : List String),
      b ≠ "simulations" →
      ∀ (j : ℕ) (q : Path), R ++ (b :: bs) ≠ simDirPath R j ++ q := by
    intro b bs hb j q hc
    rw [show simDirPath R j ++ q = R ++ ("simulations" :: fmtNat j :: q) by
      simp [simDirPath]] at hc
    have h2 := List.append_cancel_left hc
    simp only [List.cons.injEq] at h2
    exact hb h2.1
  refine ⟨rfl, ?_, ?_, ?_, ?_, ?_⟩
  · rw [hdone_created ["scripts", "paths.txt"] (hunder_ne _ _ (by decide))]
    rw [hfs1, FS.lookup_cons, if_neg (path_ne_of_ext_ne R (by simp)),
      FS.lookup_cons, if_neg (path_ne_of_ext_ne R (by simp)),
      FS.lookup_cons, if_neg (path_ne_append_cons R _ _)]
    exact hfresh ["scripts", "paths.txt"]
  · rw [hdone_created ["scripts", "job_submission.sh"] (hunder_ne _ _ (by decide))]
    rw [hfs1, FS.lookup_cons, if_neg (path_ne_of_ext_ne R (by simp)),
      FS.lookup_cons, if_neg (path_ne_of_ext_ne R (by simp)),
      FS.lookup_cons, if_neg (path_ne_append_cons R _ _)]
    exact hfresh ["scripts", "job_submission.sh"]
  · rw [hdone_created ["sweep.pkl"] (hunder_ne _ _ (by decide))]
    rw [hfs1, FS.lookup_cons, if_neg (path_ne_of_ext_ne R (by decide)),
      FS.lookup_cons, if_neg (path_ne_of_ext_ne R (by decide)),
      FS.lookup_cons, if_neg (path_ne_append_cons R _ _)]
    exact hfresh ["sweep.pkl"]
  · show some ([] ++ (P1.enum ++ [(P1.length, pk)]).map
        (fun x => (x.1, simDirPath R x.1))) = _
    rw [List.nil_append, List.map_append, enum_map_fst_fun, List.range_succ,
      List.map_append]
    rfl
  · intro i hi
    have hnotdone : ∀ y ∈ P1.enum,
        simDirPath R i ≠ simDirPath R y.1 ∧ simDirPath R i ≠ simFilePath R y.1 := by
      intro y hy
      constructor
      · intro hc
        have := simDirPath_inj hc
        have hlt := fst_lt_of_mem_enum hy
        omega
      · exact simDirPath_ne_simFilePath R i y.1
    rcases hD (simDirPath R i) with hcase | ⟨y, hy, hcase⟩
    · rw [hcase]
      have := hfreshAll i []
      rwa [List.append_nil] at this
    · rcases hcase with hc | hc
      · exact absurd hc (hnotdone y hy).1
      · exact absurd hc (hnotdone y hy).2

/-- Witness for claim C3: building `demoSweepBad` with `N = 1` fails on its
first sample and writes neither the manifest, nor the submission script,
nor the state file, nor any simulation directory. -/
theorem build_aborts_on_sample_failure_witness :
    (FS.isdir [(["tmp"], Entry.dir)] ["tmp"] = true) ∧
    (∀ q : Path, FS.lookup [(["tmp"], Entry.dir)]
      (sweepRoot demoSweepBad ["tmp"] "250101_120000" ++ q) = none) ∧
    (LogSampler.sample demoSweepBad.sampler 1 = [] ++ demoFailSample :: []) ∧
    (demoSweepBad.cls.build_model demoFailSample = .error .valueError) ∧
    ((Sweep.build demoSweepBad ["tmp"] 1 [] "250101_120000"
        [(["tmp"], Entry.dir)]).2.2 = .error .valueError ∧
     FS.lookup (Sweep.build demoSweepBad ["tmp"] 1 [] "250101_120000"
        [(["tmp"], Entry.dir)]).2.1
       (sweepRoot demoSweepBad ["tmp"] "250101_120000" ++ ["scripts", "paths.txt"]) =
       none ∧
     FS.lookup (Sweep.build demoSweepBad ["tmp"] 1 [] "250101_120000"
        [(["tmp"], Entry.dir)]).2.1
       (sweepRoot demoSweepBad ["tmp"] "250101_120000" ++
         ["scripts", "job_submission.sh"]) = none ∧
     FS.lookup (Sweep.build demoSweepBad ["tmp"] 1 [] "250101_120000"
        [(["tmp"], Entry.dir)]).2.1
       (sweepRoot demoSweepBad ["tmp"] "250101_120000" ++ ["sweep.pkl"]) = none ∧
     (Sweep.build demoSweepBad ["tmp"] 1 [] "250101_120000"
        [(["tmp"], Entry.dir)]).1.simulation_paths =
       some ((List.range (([] : List (List ℝ)).length + 1)).map
         (fun i => (i, simDirPath (sweepRoot demoSweepBad ["tmp"] "250101_120000") i))) ∧
     (∀ i, ([] : List (List ℝ)).length ≤ i →
       FS.lookup (Sweep.build demoSweepBad ["tmp"] 1 [] "250101_120000"
          [(["tmp"], Entry.dir)]).2.1
         (simDirPath (sweepRoot demoSweepBad ["tmp"] "250101_120000") i) = none)) :=
  ⟨rfl, fun _ => rfl, rfl, rfl,
   build_aborts_on_sample_failure demoSweepBad ["tmp"] "250101_120000"
     [(["tmp"], Entry.dir)] 1 [] [] demoFailSample [] .valueError rfl
     (fun _ => rfl) rfl (by simp) rfl⟩

end Gram
